import Mathlib

/-!
Verification of the storage layer of the simple-todo application.

The development shallowly embeds `src/simple_todo/storage.py` (class
`Storage`) together with the data-model entities `Task` and `TodoList`
it manipulates.  Pure Python functions become Lean functions; the
stateful `Storage` object becomes explicit state passing over a
`Storage` structure; the file system touched by `_save`/`_load` becomes
an explicit `FS` state; fallible paths return `Except PyError`.

The data-model module (`models.py`) is not part of the sources at hand:
its operations (`TodoList.add_task`, `get_task`, `remove_task`,
`to_dict`, `from_dict`, the constructors) are modelled from the spec,
and each such definition is marked `Modelled from the spec:` in its doc
comment.  Everything else is translated from `storage.py`.
-/

namespace SimpleTodo

/-- Exception classes that the embedded code can raise. -/
inductive PyError where
  | ioError
  | attributeError
  | typeError
  | keyError
  | valueError
deriving Repr, DecidableEq

/-- The ASCII whitespace characters recognised by Python's
method for stripping a string (space, tab, newline, carriage return,
vertical tab, form feed). -/
def pyIsSpace (c : Char) : Bool :=
  c = ' ' || c = '\t' || c = '\n' || c = '\r' || c = '\x0b' || c = '\x0c'

/-- Strip leading and trailing whitespace from a character list. -/
def pyStripList (cs : List Char) : List Char :=
  ((cs.dropWhile pyIsSpace).reverse.dropWhile pyIsSpace).reverse

/-- Python's method stripping leading/trailing whitespace of a string
(the embedding of the source's calls written `s.strip()`). -/
def pyStrip (s : String) : String :=
  String.mk (pyStripList s.data)

/-- Validity of a digit group for Python's `int(str)`: non-empty, ASCII
digits, single underscores allowed strictly between digits. -/
def pyDigitsOk : List Char → Bool
  | [] => false
  | [c] => c.isDigit
  | c :: d :: rest =>
      c.isDigit &&
        (if d = '_' then
          (match rest with
            | [] => false
            | _ => pyDigitsOk rest)
        else pyDigitsOk (d :: rest))

/-- Numeric value of a digit group, ignoring underscores. -/
def digitsVal (cs : List Char) : Nat :=
  cs.foldl (fun a c => if c = '_' then a else a * 10 + (c.toNat - 48)) 0

/-- Embedding of Python's `int(str)` conversion on ASCII input: strips
whitespace, allows one optional sign, then a digit group. -/
def pyInt (s : String) : Option Int :=
  match pyStripList s.data with
  | '+' :: rest => if pyDigitsOk rest then some (Int.ofNat (digitsVal rest)) else none
  | '-' :: rest => if pyDigitsOk rest then some (-(Int.ofNat (digitsVal rest))) else none
  | rest => if pyDigitsOk rest then some (Int.ofNat (digitsVal rest)) else none

/-- ASCII digit character of a value below 16 (lower case letters). -/
def hexDigit (n : Nat) : Char :=
  if n < 10 then Char.ofNat (48 + n) else Char.ofNat (87 + n)

/-- Decimal digits, least significant first; structural on a fuel
argument that only needs to be at least the number itself. -/
def natDigitsRevAux : Nat → Nat → List Char
  | 0, _ => []
  | fuel + 1, n => if n = 0 then [] else hexDigit (n % 10) :: natDigitsRevAux fuel (n / 10)

/-- Decimal digits of a positive number, least significant first. -/
def natDigitsRev (n : Nat) : List Char :=
  natDigitsRevAux n n

/-- Decimal rendering of a natural number: the embedding of Python's
string formatting of a non-negative integer. -/
def natStr (n : Nat) : String :=
  if n = 0 then "0" else String.mk (natDigitsRev n).reverse

/-- Decidable equality of fallible results, used to evaluate concrete
runs of the embedded operations. -/
instance {ε : Type u} {α : Type v} [DecidableEq ε] [DecidableEq α] :
    DecidableEq (Except ε α) := fun a b =>
  match a, b with
  | .ok x, .ok y =>
      if h : x = y then isTrue (by rw [h])
      else isFalse (fun hc => h (by injection hc))
  | .error e, .error f =>
      if h : e = f then isTrue (by rw [h])
      else isFalse (fun hc => h (by injection hc))
  | .ok _, .error _ => isFalse (fun hc => Except.noConfusion hc)
  | .error _, .ok _ => isFalse (fun hc => Except.noConfusion hc)

/-- A to-do task: opaque id, title, completion flag. -/
structure Task where
  id : String
  title : String
  completed : Bool
deriving Repr, DecidableEq

/-- A to-do list: opaque id, name, owned ordered tasks. -/
structure TodoList where
  id : String
  name : String
  tasks : List Task
deriving Repr, DecidableEq

/-- Plain nested-mapping values: the JSON-like data that `to_dict`
produces and `json.load` returns (strings, booleans, sequences,
string-keyed mappings suffice for this program's data). -/
inductive JValue where
  | str : String → JValue
  | bool : Bool → JValue
  | arr : List JValue → JValue
  | obj : List (String × JValue) → JValue
deriving Repr

/-- Key lookup in a mapping represented as an association list. -/
def jlookup (fields : List (String × JValue)) (k : String) : Option JValue :=
  (fields.find? (fun p => p.1 == k)).map (fun p => p.2)

/-- Modelled from the spec: `Task.to_dict` from the missing
`models.py`, serialising a task to the mapping carrying `id`, `title`,
`completed` (spec sections 3 and 6). -/
def Task.to_dict (t : Task) : JValue :=
  .obj [("id", .str t.id), ("title", .str t.title), ("completed", .bool t.completed)]

/-- Modelled from the spec: `Task.from_dict` from the missing
`models.py`, reading back the mapping produced by `Task.to_dict`. -/
def Task.from_dict : JValue → Except PyError Task
  | .obj fields =>
      match jlookup fields "id", jlookup fields "title", jlookup fields "completed" with
      | some (.str i), some (.str ti), some (.bool c) => .ok ⟨i, ti, c⟩
      | _, _, _ => .error .keyError
  | _ => .error .typeError

/-- Modelled from the spec: `TodoList.to_dict` from the missing
`models.py`, carrying `id`, `name` and the serialised tasks in list
order (spec sections 3 and 6). -/
def TodoList.to_dict (l : TodoList) : JValue :=
  .obj [("id", .str l.id), ("name", .str l.name), ("tasks", .arr (l.tasks.map Task.to_dict))]

/-- Modelled from the spec: `TodoList.from_dict` from the missing
`models.py`; it must tolerate a missing or empty tasks sequence
(treated as empty, spec section 4.1). -/
def TodoList.from_dict : JValue → Except PyError TodoList
  | .obj fields =>
      match jlookup fields "id", jlookup fields "name" with
      | some (.str i), some (.str n) =>
          (match jlookup fields "tasks" with
            | none => .ok ⟨i, n, []⟩
            | some (.arr ts) => (ts.mapM Task.from_dict).map (fun tasks => ⟨i, n, tasks⟩)
            | some _ => .error .typeError)
      | _, _ => .error .keyError
  | _ => .error .typeError

/-- JSON escaping of one character as Python's serialiser performs it
with ASCII escaping turned off: quote, backslash and control
characters are escaped, everything else (non-ASCII included) is kept. -/
def escChar (c : Char) : String :=
  if c = '"' then "\\\""
  else if c = '\\' then "\\\\"
  else if c = '\n' then "\\n"
  else if c = '\t' then "\\t"
  else if c = '\r' then "\\r"
  else if c = '\x08' then "\\b"
  else if c = '\x0c' then "\\f"
  else if c.toNat < 32 then "\\u00" ++ String.mk [hexDigit (c.toNat / 16), hexDigit (c.toNat % 16)]
  else String.singleton c

/-- JSON escaping of a whole string. -/
def jsonEscape (s : String) : String :=
  s.data.foldl (fun acc c => acc ++ escChar c) ""

/-- Indentation prefix at a nesting level (`indent=2`). -/
def ind (lvl : Nat) : String :=
  String.mk (List.replicate (2 * lvl) ' ')

mutual

/-- Embedding of the call `json.dump(data, f, indent=2,
ensure_ascii=False)` made by `_save`: pretty-printed JSON text with
two-space indentation, each element of a non-empty container on its
own line, keys followed by a colon and a space, non-ASCII characters
written unescaped. -/
def dumpJ : Nat → JValue → String
  | _, .str s => "\"" ++ jsonEscape s ++ "\""
  | _, .bool b => if b then "true" else "false"
  | _, .arr [] => "[]"
  | lvl, .arr (x :: xs) => "[\n" ++ dumpItems (lvl + 1) x xs ++ "\n" ++ ind lvl ++ "]"
  | _, .obj [] => "\x7b\x7d"
  | lvl, .obj (f :: fs) => "\x7b\n" ++ dumpFields (lvl + 1) f fs ++ "\n" ++ ind lvl ++ "\x7d"
termination_by _ v => sizeOf v

def dumpItems : Nat → JValue → List JValue → String
  | lvl, x, [] => ind lvl ++ dumpJ lvl x
  | lvl, x, y :: ys => ind lvl ++ dumpJ lvl x ++ ",\n" ++ dumpItems lvl y ys
termination_by _ x xs => sizeOf x + sizeOf xs

def dumpFields : Nat → String × JValue → List (String × JValue) → String
  | lvl, (k, v), [] => ind lvl ++ "\"" ++ jsonEscape k ++ "\": " ++ dumpJ lvl v
  | lvl, (k, v), p :: ps =>
      ind lvl ++ "\"" ++ jsonEscape k ++ "\": " ++ dumpJ lvl v ++ ",\n" ++ dumpFields lvl p ps
termination_by _ f fs => sizeOf f + sizeOf fs

end

/-- The mapping `_save` serialises: a single key holding the lists in
collection order (the local variable written `data` in the source). -/
def dataVal (lists : List TodoList) : JValue :=
  .obj [("lists", .arr (lists.map TodoList.to_dict))]

/-- Full text `_save` writes for a given collection. -/
def pyDumpsData (lists : List TodoList) : String :=
  dumpJ 0 (dataVal lists)

/-- The slice of the file system `_save` touches: the data file's
content (absent when the file does not exist) and the temporary files
living in the data directory.  Temporary names are drawn from a counter,
modelling the unique names the temp-file maker hands out. -/
structure FS where
  dataFile : Option String
  temps : List (Nat × String)
  tcounter : Nat
deriving Repr, DecidableEq

/-- Failure injection points inside `_save`, after the temp file is
created: the write to the temp file, or the atomic rename over the
target. -/
inductive SaveFault where
  | writeFail
  | replaceFail
deriving Repr, DecidableEq

/-- Embedding of `Storage._save`: create a fresh uniquely named temp
file, write the serialised content to it, atomically rename it over
the data file; on a failure after creation, unlink the temp file and
re-raise. -/
def fsSave (content : String) (fault : Option SaveFault) (fs : FS) : Option PyError × FS :=
  let tid := fs.tcounter
  let fs1 : FS := ⟨fs.dataFile, fs.temps ++ [(tid, "")], fs.tcounter + 1⟩
  match fault with
  | some .writeFail =>
      (some .ioError, ⟨fs1.dataFile, fs1.temps.filter (fun p => p.1 != tid), fs1.tcounter⟩)
  | some .replaceFail =>
      let fs2 : FS := ⟨fs1.dataFile, fs1.temps.map (fun p => if p.1 == tid then (tid, content) else p), fs1.tcounter⟩
      (some .ioError, ⟨fs2.dataFile, fs2.temps.filter (fun p => p.1 != tid), fs2.tcounter⟩)
  | none =>
      let fs2 : FS := ⟨fs1.dataFile, fs1.temps.map (fun p => if p.1 == tid then (tid, content) else p), fs1.tcounter⟩
      (none, ⟨some content, fs2.temps.filter (fun p => p.1 != tid), fs2.tcounter⟩)

/-- Modelled from the spec: the id factory of the missing `models.py`
(uuid-class identifiers, globally unique).  Generation is represented
as an injective supply of opaque strings indexed by a counter. -/
def mkId (n : Nat) : String :=
  String.mk (List.replicate (n + 1) 'u')

/-- The `Storage` object: the authoritative in-memory collection, the
id-supply counter, and the slice of file system it owns. -/
structure Storage where
  lists : List TodoList
  gen : Nat
  fs : FS
deriving Repr, DecidableEq

/-- In-place mutation of the first element satisfying a predicate,
as Python's mutation through the reference returned by a linear
search behaves. -/
def updateFirst (p : α → Bool) (f : α → α) : List α → List α
  | [] => []
  | x :: xs => if p x then f x :: xs else x :: updateFirst p f xs

/-- Embedding of `Storage.get_lists`: the collection (the source
returns a fresh outer list holding the same references; aliasing
itself is studied in the reference model below). -/
def Storage.get_lists (st : Storage) : List TodoList :=
  st.lists

/-- Embedding of `Storage.get_list`: linear search by id. -/
def Storage.get_list (st : Storage) (list_id : String) : Option TodoList :=
  st.lists.find? (fun l => l.id == list_id)

/-- Embedding of the check written `name.startswith("List ")`. -/
def pyStartsWith (s pre : String) : Bool :=
  pre.data.isPrefixOf s.data

/-- Numeric suffix a list name contributes to the auto-naming scan:
names starting with the pattern marker whose remainder parses as an
integer. -/
def listNameNum (name : String) : Option Int :=
  if pyStartsWith name "List " then pyInt (String.mk (name.data.drop 5)) else none

/-- All numeric suffixes in use (the set named `existing_nums`). -/
def usedNums (lists : List TodoList) : List Int :=
  lists.filterMap (fun l => listNameNum l.name)

/-- The search loop of `create_list`, counting up from a candidate as
long as it is taken; fuel makes the recursion structural and is chosen
large enough to never run out. -/
def nextNumAux (used : List Int) : Nat → Nat → Nat
  | 0, n => n
  | fuel + 1, n => if (n : Int) ∈ used then nextNumAux used fuel (n + 1) else n

/-- First available positive numeric suffix. -/
def nextNum (used : List Int) : Nat :=
  nextNumAux used (used.length + 1) 1

/-- Name auto-generation of `create_list`. -/
def autoName (lists : List TodoList) : String :=
  "List " ++ natStr (nextNum (usedNums lists))

/-- The branch of `create_list` choosing between the supplied name and
an auto-generated one (supplied names that are absent or falsy after
stripping are replaced). -/
def createChosen (st : Storage) (name : Option String) : String :=
  match name with
  | none => autoName st.lists
  | some s => if s == "" || pyStrip s == "" then autoName st.lists else s

/-- Embedding of `Storage.create_list`: auto-generate a name when the
argument is absent or falsy after stripping, construct the list (the
constructor of the missing `models.py` is modelled from the spec:
fresh id, given name, no tasks), append, save. -/
def Storage.create_list (st : Storage) (name : Option String) (fault : Option SaveFault) :
    Except PyError TodoList × Storage :=
  let chosen : String := createChosen st name
  let newList : TodoList := ⟨mkId st.gen, pyStrip chosen, []⟩
  let lists1 := st.lists ++ [newList]
  let (err, fs1) := fsSave (pyDumpsData lists1) fault st.fs
  let st1 : Storage := ⟨lists1, st.gen + 1, fs1⟩
  match err with
  | some e => (.error e, st1)
  | none => (.ok newList, st1)

/-- Embedding of `Storage.delete_list`: remove the first list with the
id, save only when found. -/
def Storage.delete_list (st : Storage) (list_id : String) (fault : Option SaveFault) :
    Except PyError Bool × Storage :=
  if st.lists.any (fun l => l.id == list_id) then
    let lists1 := st.lists.eraseP (fun l => l.id == list_id)
    let (err, fs1) := fsSave (pyDumpsData lists1) fault st.fs
    let st1 : Storage := ⟨lists1, st.gen, fs1⟩
    match err with
    | some e => (.error e, st1)
    | none => (.ok true, st1)
  else (.ok false, st)

/-- Embedding of `Storage.rename_list`: no-op unless the list is found
and the new name is non-empty after stripping. -/
def Storage.rename_list (st : Storage) (list_id new_name : String) (fault : Option SaveFault) :
    Except PyError Bool × Storage :=
  match st.get_list list_id with
  | none => (.ok false, st)
  | some _ =>
      if pyStrip new_name == "" then (.ok false, st)
      else
        let lists1 := updateFirst (fun l => l.id == list_id)
          (fun l => ⟨l.id, pyStrip new_name, l.tasks⟩) st.lists
        let (err, fs1) := fsSave (pyDumpsData lists1) fault st.fs
        let st1 : Storage := ⟨lists1, st.gen, fs1⟩
        match err with
        | some e => (.error e, st1)
        | none => (.ok true, st1)

/-- Embedding of `Storage.add_task`; the task construction and append
performed by the missing `models.py` is modelled from the spec: fresh
id, given already-stripped title, not completed, appended at the end. -/
def Storage.add_task (st : Storage) (list_id title : String) (fault : Option SaveFault) :
    Except PyError (Option Task) × Storage :=
  match st.get_list list_id with
  | none => (.ok none, st)
  | some _ =>
      if pyStrip title == "" then (.ok none, st)
      else
        let t : Task := ⟨mkId st.gen, pyStrip title, false⟩
        let lists1 := updateFirst (fun l => l.id == list_id)
          (fun l => ⟨l.id, l.name, l.tasks ++ [t]⟩) st.lists
        let (err, fs1) := fsSave (pyDumpsData lists1) fault st.fs
        let st1 : Storage := ⟨lists1, st.gen + 1, fs1⟩
        match err with
        | some e => (.error e, st1)
        | none => (.ok (some t), st1)

/-- Modelled from the spec: `TodoList.get_task` of the missing
`models.py`: the task with matching id, or an absent result. -/
def TodoList.get_task (l : TodoList) (task_id : String) : Option Task :=
  l.tasks.find? (fun t => t.id == task_id)

/-- Embedding of `Storage.update_task`: retitle the first matching
task of the first matching list when the stripped title is non-empty. -/
def Storage.update_task (st : Storage) (list_id task_id title : String) (fault : Option SaveFault) :
    Except PyError Bool × Storage :=
  match st.get_list list_id with
  | none => (.ok false, st)
  | some lst =>
      match lst.get_task task_id with
      | none => (.ok false, st)
      | some _ =>
          if pyStrip title == "" then (.ok false, st)
          else
            let lists1 := updateFirst (fun l => l.id == list_id)
              (fun l => ⟨l.id, l.name, updateFirst (fun t => t.id == task_id)
                (fun t => ⟨t.id, pyStrip title, t.completed⟩) l.tasks⟩) st.lists
            let (err, fs1) := fsSave (pyDumpsData lists1) fault st.fs
            let st1 : Storage := ⟨lists1, st.gen, fs1⟩
            match err with
            | some e => (.error e, st1)
            | none => (.ok true, st1)

/-- Embedding of `Storage.delete_task`; the removal of the first task
with matching id performed by the missing `models.py` is modelled from
the spec. -/
def Storage.delete_task (st : Storage) (list_id task_id : String) (fault : Option SaveFault) :
    Except PyError Bool × Storage :=
  match st.get_list list_id with
  | none => (.ok false, st)
  | some lst =>
      if lst.tasks.any (fun t => t.id == task_id) then
        let lists1 := updateFirst (fun l => l.id == list_id)
          (fun l => ⟨l.id, l.name, l.tasks.eraseP (fun t => t.id == task_id)⟩) st.lists
        let (err, fs1) := fsSave (pyDumpsData lists1) fault st.fs
        let st1 : Storage := ⟨lists1, st.gen, fs1⟩
        match err with
        | some e => (.error e, st1)
        | none => (.ok true, st1)
      else (.ok false, st)

/-- Embedding of `Storage.toggle_task`: flip the completion flag of
the first matching task of the first matching list. -/
def Storage.toggle_task (st : Storage) (list_id task_id : String) (fault : Option SaveFault) :
    Except PyError Bool × Storage :=
  match st.get_list list_id with
  | none => (.ok false, st)
  | some lst =>
      match lst.get_task task_id with
      | none => (.ok false, st)
      | some _ =>
          let lists1 := updateFirst (fun l => l.id == list_id)
            (fun l => ⟨l.id, l.name, updateFirst (fun t => t.id == task_id)
              (fun t => ⟨t.id, t.title, !t.completed⟩) l.tasks⟩) st.lists
          let (err, fs1) := fsSave (pyDumpsData lists1) fault st.fs
          let st1 : Storage := ⟨lists1, st.gen, fs1⟩
          match err with
          | some e => (.error e, st1)
          | none => (.ok true, st1)

/-- Initial states of the data file as `_load` can encounter them:
absent, unreadable (I/O error), unparsable text, or text parsing to a
JSON value. -/
inductive LoadInput where
  | noFile
  | ioError
  | notJson
  | parsed : JValue → LoadInput

/-- Python iteration over the value a `for` loop receives: sequences
yield their elements, strings their characters, mappings their keys,
anything else raises a type error. -/
def pyIterElems : JValue → Except PyError (List JValue)
  | .arr xs => .ok xs
  | .str s => .ok (s.data.map (fun c => .str (String.singleton c)))
  | .obj fields => .ok (fields.map (fun p => .str p.1))
  | .bool _ => .error .typeError

/-- Embedding of `Storage._load`: an absent file yields the empty
collection; a decode or I/O failure is caught and yields the empty
collection; parsed content is read through the mapping getter (which
raises an attribute error on a non-mapping) and each entry goes
through `TodoList.from_dict`, errors other than the two caught classes
propagating. -/
def loadLists : LoadInput → Except PyError (List TodoList)
  | .noFile => .ok []
  | .ioError => .ok []
  | .notJson => .ok []
  | .parsed v =>
      match v with
      | .obj fields =>
          (match jlookup fields "lists" with
            | none => .ok []
            | some lv => (pyIterElems lv).bind (fun elems => elems.mapM TodoList.from_dict))
      | _ => .error .attributeError

/-- Embedding of the data-directory resolution in the constructor: an
explicit override wins, else the data-home environment variable, else
the expanded home fallback, with the application folder appended. -/
def resolveDataDir (overrideDir : Option String) (xdgDataHome : Option String) (home : String) : String :=
  match overrideDir with
  | some d => d
  | none => (match xdgDataHome with
      | some x => x
      | none => home ++ "/.local/share") ++ "/simple-todo"

/-- Embedding of the data-file path the constructor derives. -/
def dataFilePath (dataDir : String) : String :=
  dataDir ++ "/data.json"

/-!
Reference model.  The main embedding above passes collection values
around; Python instead holds references to shared mutable objects, and
`get_lists` copies only the outer list.  The model below makes the
references explicit so that statements about aliasing between a
returned snapshot and the live collection can be made: list objects
live on a heap addressed by reference, the collection and each
snapshot are lists of references, and observation dereferences through
the current heap. -/

/-- A list object as it sits on the heap: its scalar fields and the
references of its task objects. -/
structure HList where
  id : String
  name : String
  taskRefs : List Nat
deriving Repr, DecidableEq

/-- Dereference into a heap represented as an association list. -/
def deref (heap : List (Nat × α)) (r : Nat) : Option α :=
  (heap.find? (fun p => p.1 == r)).map (fun p => p.2)

/-- The `Storage` object of the reference model: the collection as a
list of references, the two heaps, and a fresh-reference counter. -/
structure HStorage where
  listRefs : List Nat
  listHeap : List (Nat × HList)
  taskHeap : List (Nat × Task)
  counter : Nat
deriving Repr, DecidableEq

/-- The task value a task reference denotes now. -/
def viewTask (st : HStorage) (r : Nat) : Option Task :=
  deref st.taskHeap r

/-- The list value a list reference denotes now. -/
def viewList (st : HStorage) (r : Nat) : Option TodoList :=
  (deref st.listHeap r).map (fun hl => ⟨hl.id, hl.name, hl.taskRefs.filterMap (viewTask st)⟩)

/-- What a caller holding a sequence of references observes now. -/
def viewRefs (st : HStorage) (refs : List Nat) : List (Option TodoList) :=
  refs.map (viewList st)

/-- Embedding of `Storage.get_lists` in the reference model: a copy of
the outer list only; the references are shared. -/
def HStorage.get_lists (st : HStorage) : List Nat :=
  st.listRefs

/-- Embedding of `Storage.get_list` in the reference model: reference
of the first list with matching id. -/
def HStorage.get_list (st : HStorage) (list_id : String) : Option Nat :=
  st.listRefs.find? (fun r =>
    match deref st.listHeap r with
    | some hl => hl.id == list_id
    | none => false)

/-- Embedding of `Storage.rename_list` in the reference model: the
found object is mutated on the heap (persistence is not relevant to
the aliasing question and is omitted here). -/
def HStorage.rename_list (st : HStorage) (list_id new_name : String) : Bool × HStorage :=
  match st.get_list list_id with
  | none => (false, st)
  | some r =>
      if pyStrip new_name == "" then (false, st)
      else
        (true, ⟨st.listRefs,
          st.listHeap.map (fun p => if p.1 == r then (p.1, ⟨p.2.id, pyStrip new_name, p.2.taskRefs⟩) else p),
          st.taskHeap, st.counter⟩)

/-- The auto-naming scan of `create_list` read through the heap. -/
def HStorage.autoName (st : HStorage) : String :=
  "List " ++ natStr (nextNum (st.listRefs.filterMap (fun r =>
    (deref st.listHeap r).bind (fun hl => listNameNum hl.name))))

/-- Embedding of `Storage.create_list` in the reference model: a fresh
object is allocated and its reference appended to the collection. -/
def HStorage.create_list (st : HStorage) (name : Option String) : Nat × HStorage :=
  let chosen : String :=
    match name with
    | none => st.autoName
    | some s => if s == "" || pyStrip s == "" then st.autoName else s
  let r := st.counter
  (r, ⟨st.listRefs ++ [r],
    st.listHeap ++ [(r, ⟨mkId st.counter, pyStrip chosen, []⟩)],
    st.taskHeap, st.counter + 1⟩)

/-- Embedding of `Storage.delete_list` in the reference model: the
reference is dropped from the collection; the object itself stays
reachable through any snapshot holding it. -/
def HStorage.delete_list (st : HStorage) (list_id : String) : Bool × HStorage :=
  match st.get_list list_id with
  | none => (false, st)
  | some r =>
      (true, ⟨st.listRefs.eraseP (fun q => q == r), st.listHeap, st.taskHeap, st.counter⟩)

/-- File-system well-formedness: every live temp file was handed out
by the unique-name counter. -/
def TempWF (fs : FS) : Prop :=
  ∀ p ∈ fs.temps, p.1 < fs.tcounter

/-- Outcome of a successful save: the data file holds exactly the
serialisation of the in-memory collection and no temp file was left
behind. -/
def savedConsistent (stOld stNew : Storage) : Prop :=
  stNew.fs.dataFile = some (pyDumpsData stNew.lists) ∧ stNew.fs.temps = stOld.fs.temps

/-- Outcome of a failed save: the data file is untouched and no temp
file was left behind. -/
def saveFailedClean (stOld stNew : Storage) : Prop :=
  stNew.fs.dataFile = stOld.fs.dataFile ∧ stNew.fs.temps = stOld.fs.temps

/-- Frame property of an operation addressed to one list: the
collection decomposes around the first list carrying the addressed id,
everything before and after it is untouched and keeps its order, and
that one list is either removed or replaced by a list with the same
id. -/
def FrameOk (old new : List TodoList) (list_id : String) : Prop :=
  ∃ pre x post, old = pre ++ x :: post ∧ x.id = list_id ∧ (∀ y ∈ pre, y.id ≠ list_id) ∧
    (new = pre ++ post ∨ ∃ x', x'.id = list_id ∧ new = pre ++ x' :: post)

/-- Reference-model well-formedness: collection references were handed
out by the allocation counter. -/
def HWF (st : HStorage) : Prop :=
  ∀ r ∈ st.listRefs, r < st.counter

/-- All task ids in the collection come from earlier states of the id
supply. -/
def IdsFrom (st : Storage) : Prop :=
  ∀ l ∈ st.lists, ∀ t ∈ l.tasks, ∃ k, k < st.gen ∧ t.id = mkId k

/-! Helper lemmas. -/

theorem updateFirst_find? (p : α → Bool) (f : α → α) (hp : ∀ x, p (f x) = p x) :
    ∀ l : List α, (updateFirst p f l).find? p = (l.find? p).map f := by
  intro l
  induction l with
  | nil => rfl
  | cons x xs ih =>
      by_cases hx : p x
      · simp [updateFirst, hx, List.find?_cons, hp]
      · simp [updateFirst, hx, List.find?_cons, ih]

theorem updateFirst_comp (p : α → Bool) (f g : α → α) (hg : ∀ x, p (g x) = p x) :
    ∀ l : List α, updateFirst p f (updateFirst p g l) = updateFirst p (fun x => f (g x)) l := by
  intro l
  induction l with
  | nil => rfl
  | cons x xs ih =>
      by_cases hx : p x
      · simp [updateFirst, hx, hg]
      · simp [updateFirst, hx, ih]

theorem updateFirst_id (p : α → Bool) (f : α → α) (hf : ∀ x, f x = x) :
    ∀ l : List α, updateFirst p f l = l := by
  intro l
  induction l with
  | nil => rfl
  | cons x xs ih =>
      by_cases hx : p x
      · simp [updateFirst, hx, hf]
      · simp [updateFirst, hx, ih]

theorem updateFirst_decomp (p : α → Bool) (f : α → α) :
    ∀ (l : List α) (x : α), l.find? p = some x →
      ∃ pre post, l = pre ++ x :: post ∧ (∀ y ∈ pre, p y = false) ∧
        updateFirst p f l = pre ++ f x :: post := by
  intro l
  induction l with
  | nil => intro x h; simp at h
  | cons a as ih =>
      intro x h
      by_cases ha : p a
      · have hax : a = x := by simpa [List.find?_cons, ha] using h
        subst hax
        refine ⟨[], as, by simp, by simp, ?_⟩
        simp [updateFirst, ha]
      · simp [List.find?_cons, ha] at h
        obtain ⟨pre, post, h1, h2, h3⟩ := ih x h
        refine ⟨a :: pre, post, by simp [h1], ?_, ?_⟩
        · intro y hy
          rcases List.mem_cons.mp hy with rfl | hy
          · simp [ha]
          · exact h2 y hy
        · simp [updateFirst, ha, h3]

theorem temps_filter_fresh (ts : List (Nat × String)) (tid : Nat)
    (h : ∀ p ∈ ts, p.1 < tid) :
    ts.filter (fun p => p.1 != tid) = ts := by
  induction ts with
  | nil => rfl
  | cons a as ih =>
      have ha : a.1 < tid := h a (by simp)
      have : (a.1 != tid) = true := by
        simp only [bne_iff_ne, ne_eq]
        omega
      simp [List.filter_cons, this, ih (fun p hp => h p (by simp [hp]))]

theorem temps_map_fresh (ts : List (Nat × String)) (tid : Nat) (c : String)
    (h : ∀ p ∈ ts, p.1 < tid) :
    ts.map (fun p => if p.1 == tid then (tid, c) else p) = ts := by
  induction ts with
  | nil => rfl
  | cons a as ih =>
      have ha : a.1 < tid := h a (by simp)
      have hne : ¬ ((a.1 == tid) = true) := by
        simp only [beq_iff_eq]
        omega
      simp only [List.map_cons, if_neg hne, ih (fun p hp => h p (by simp [hp]))]

theorem fsSave_none (c : String) (fs : FS) (h : TempWF fs) :
    fsSave c none fs = (none, ⟨some c, fs.temps, fs.tcounter + 1⟩) := by
  simp only [fsSave]
  congr 1
  simp only [FS.mk.injEq, and_true, true_and]
  rw [List.map_append, List.filter_append]
  rw [temps_map_fresh fs.temps fs.tcounter c h, temps_filter_fresh fs.temps fs.tcounter h]
  simp

theorem fsSave_fault (c : String) (f : SaveFault) (fs : FS) (h : TempWF fs) :
    fsSave c (some f) fs = (some .ioError, ⟨fs.dataFile, fs.temps, fs.tcounter + 1⟩) := by
  cases f with
  | writeFail =>
      simp only [fsSave]
      congr 1
      simp only [FS.mk.injEq, and_true, true_and]
      rw [List.filter_append, temps_filter_fresh fs.temps fs.tcounter h]
      simp
  | replaceFail =>
      simp only [fsSave]
      congr 1
      simp only [FS.mk.injEq, and_true, true_and]
      rw [List.map_append, List.filter_append]
      rw [temps_map_fresh fs.temps fs.tcounter c h, temps_filter_fresh fs.temps fs.tcounter h]
      simp

theorem create_list_none (st : Storage) (name : Option String) (hfs : TempWF st.fs) :
    st.create_list name none =
      (.ok ⟨mkId st.gen, pyStrip (createChosen st name), []⟩,
       ⟨st.lists ++ [⟨mkId st.gen, pyStrip (createChosen st name), []⟩], st.gen + 1,
        ⟨some (pyDumpsData (st.lists ++ [⟨mkId st.gen, pyStrip (createChosen st name), []⟩])),
         st.fs.temps, st.fs.tcounter + 1⟩⟩) := by
  simp only [Storage.create_list, fsSave_none _ _ hfs]

theorem create_list_fault (st : Storage) (name : Option String) (f : SaveFault) (hfs : TempWF st.fs) :
    st.create_list name (some f) =
      (.error .ioError,
       ⟨st.lists ++ [⟨mkId st.gen, pyStrip (createChosen st name), []⟩], st.gen + 1,
        ⟨st.fs.dataFile, st.fs.temps, st.fs.tcounter + 1⟩⟩) := by
  simp only [Storage.create_list, fsSave_fault _ _ _ hfs]

theorem delete_list_noop (st : Storage) (lid : String) (fault : Option SaveFault)
    (h : st.lists.any (fun l => l.id == lid) = false) :
    st.delete_list lid fault = (.ok false, st) := by
  simp [Storage.delete_list, h]

theorem delete_list_found_none (st : Storage) (lid : String) (hfs : TempWF st.fs)
    (h : st.lists.any (fun l => l.id == lid) = true) :
    st.delete_list lid none =
      (.ok true,
       ⟨st.lists.eraseP (fun l => l.id == lid), st.gen,
        ⟨some (pyDumpsData (st.lists.eraseP (fun l => l.id == lid))),
         st.fs.temps, st.fs.tcounter + 1⟩⟩) := by
  simp only [Storage.delete_list, h, if_true, fsSave_none _ _ hfs]

theorem delete_list_found_fault (st : Storage) (lid : String) (f : SaveFault) (hfs : TempWF st.fs)
    (h : st.lists.any (fun l => l.id == lid) = true) :
    st.delete_list lid (some f) =
      (.error .ioError,
       ⟨st.lists.eraseP (fun l => l.id == lid), st.gen,
        ⟨st.fs.dataFile, st.fs.temps, st.fs.tcounter + 1⟩⟩) := by
  simp only [Storage.delete_list, h, if_true, fsSave_fault _ _ _ hfs]

theorem rename_list_noop (st : Storage) (lid nm : String) (fault : Option SaveFault)
    (h : st.get_list lid = none ∨ pyStrip nm = "") :
    st.rename_list lid nm fault = (.ok false, st) := by
  rcases h with h | h
  · simp [Storage.rename_list, h]
  · cases hg : st.get_list lid with
    | none => simp [Storage.rename_list, hg]
    | some lst => simp [Storage.rename_list, hg, h]

theorem rename_list_found_none (st : Storage) (lid nm : String) (lst : TodoList)
    (hfs : TempWF st.fs) (hg : st.get_list lid = some lst) (hnm : pyStrip nm ≠ "") :
    st.rename_list lid nm none =
      (.ok true,
       ⟨updateFirst (fun l => l.id == lid) (fun l => ⟨l.id, pyStrip nm, l.tasks⟩) st.lists, st.gen,
        ⟨some (pyDumpsData (updateFirst (fun l => l.id == lid) (fun l => ⟨l.id, pyStrip nm, l.tasks⟩) st.lists)),
         st.fs.temps, st.fs.tcounter + 1⟩⟩) := by
  have hb : (pyStrip nm == "") = false := beq_eq_false_iff_ne.mpr hnm
  simp only [Storage.rename_list, hg, hb, Bool.false_eq_true, if_false, fsSave_none _ _ hfs]

theorem rename_list_found_fault (st : Storage) (lid nm : String) (lst : TodoList) (f : SaveFault)
    (hfs : TempWF st.fs) (hg : st.get_list lid = some lst) (hnm : pyStrip nm ≠ "") :
    st.rename_list lid nm (some f) =
      (.error .ioError,
       ⟨updateFirst (fun l => l.id == lid) (fun l => ⟨l.id, pyStrip nm, l.tasks⟩) st.lists, st.gen,
        ⟨st.fs.dataFile, st.fs.temps, st.fs.tcounter + 1⟩⟩) := by
  have hb : (pyStrip nm == "") = false := beq_eq_false_iff_ne.mpr hnm
  simp only [Storage.rename_list, hg, hb, Bool.false_eq_true, if_false, fsSave_fault _ _ _ hfs]

theorem add_task_noop (st : Storage) (lid title : String) (fault : Option SaveFault)
    (h : st.get_list lid = none ∨ pyStrip title = "") :
    st.add_task lid title fault = (.ok none, st) := by
  rcases h with h | h
  · simp [Storage.add_task, h]
  · cases hg : st.get_list lid with
    | none => simp [Storage.add_task, hg]
    | some lst => simp [Storage.add_task, hg, h]

theorem add_task_found_none (st : Storage) (lid title : String) (lst : TodoList)
    (hfs : TempWF st.fs) (hg : st.get_list lid = some lst) (ht : pyStrip title ≠ "") :
    st.add_task lid title none =
      (.ok (some ⟨mkId st.gen, pyStrip title, false⟩),
       ⟨updateFirst (fun l => l.id == lid)
          (fun l => ⟨l.id, l.name, l.tasks ++ [⟨mkId st.gen, pyStrip title, false⟩]⟩) st.lists,
        st.gen + 1,
        ⟨some (pyDumpsData (updateFirst (fun l => l.id == lid)
          (fun l => ⟨l.id, l.name, l.tasks ++ [⟨mkId st.gen, pyStrip title, false⟩]⟩) st.lists)),
         st.fs.temps, st.fs.tcounter + 1⟩⟩) := by
  have hb : (pyStrip title == "") = false := beq_eq_false_iff_ne.mpr ht
  simp only [Storage.add_task, hg, hb, Bool.false_eq_true, if_false, fsSave_none _ _ hfs]

theorem add_task_found_fault (st : Storage) (lid title : String) (lst : TodoList) (f : SaveFault)
    (hfs : TempWF st.fs) (hg : st.get_list lid = some lst) (ht : pyStrip title ≠ "") :
    st.add_task lid title (some f) =
      (.error .ioError,
       ⟨updateFirst (fun l => l.id == lid)
          (fun l => ⟨l.id, l.name, l.tasks ++ [⟨mkId st.gen, pyStrip title, false⟩]⟩) st.lists,
        st.gen + 1,
        ⟨st.fs.dataFile, st.fs.temps, st.fs.tcounter + 1⟩⟩) := by
  have hb : (pyStrip title == "") = false := beq_eq_false_iff_ne.mpr ht
  simp only [Storage.add_task, hg, hb, Bool.false_eq_true, if_false, fsSave_fault _ _ _ hfs]

theorem update_task_noop (st : Storage) (lid tid title : String) (fault : Option SaveFault)
    (h : st.get_list lid = none ∨ (∃ lst, st.get_list lid = some lst ∧ lst.get_task tid = none) ∨
      pyStrip title = "") :
    st.update_task lid tid title fault = (.ok false, st) := by
  rcases h with h | ⟨lst, hg, htask⟩ | h
  · simp [Storage.update_task, h]
  · simp [Storage.update_task, hg, htask]
  · cases hg : st.get_list lid with
    | none => simp [Storage.update_task, hg]
    | some lst =>
        cases htask : lst.get_task tid with
        | none => simp [Storage.update_task, hg, htask]
        | some t => simp [Storage.update_task, hg, htask, h]

theorem update_task_found_none (st : Storage) (lid tid title : String) (lst : TodoList) (t : Task)
    (hfs : TempWF st.fs) (hg : st.get_list lid = some lst) (htask : lst.get_task tid = some t)
    (ht : pyStrip title ≠ "") :
    st.update_task lid tid title none =
      (.ok true,
       ⟨updateFirst (fun l => l.id == lid)
          (fun l => ⟨l.id, l.name, updateFirst (fun x => x.id == tid)
            (fun x => ⟨x.id, pyStrip title, x.completed⟩) l.tasks⟩) st.lists,
        st.gen,
        ⟨some (pyDumpsData (updateFirst (fun l => l.id == lid)
          (fun l => ⟨l.id, l.name, updateFirst (fun x => x.id == tid)
            (fun x => ⟨x.id, pyStrip title, x.completed⟩) l.tasks⟩) st.lists)),
         st.fs.temps, st.fs.tcounter + 1⟩⟩) := by
  have hb : (pyStrip title == "") = false := beq_eq_false_iff_ne.mpr ht
  simp only [Storage.update_task, hg, htask, hb, Bool.false_eq_true, if_false, fsSave_none _ _ hfs]

theorem update_task_found_fault (st : Storage) (lid tid title : String) (lst : TodoList) (t : Task)
    (f : SaveFault) (hfs : TempWF st.fs) (hg : st.get_list lid = some lst)
    (htask : lst.get_task tid = some t) (ht : pyStrip title ≠ "") :
    st.update_task lid tid title (some f) =
      (.error .ioError,
       ⟨updateFirst (fun l => l.id == lid)
          (fun l => ⟨l.id, l.name, updateFirst (fun x => x.id == tid)
            (fun x => ⟨x.id, pyStrip title, x.completed⟩) l.tasks⟩) st.lists,
        st.gen,
        ⟨st.fs.dataFile, st.fs.temps, st.fs.tcounter + 1⟩⟩) := by
  have hb : (pyStrip title == "") = false := beq_eq_false_iff_ne.mpr ht
  simp only [Storage.update_task, hg, htask, hb, Bool.false_eq_true, if_false, fsSave_fault _ _ _ hfs]

theorem delete_task_noop (st : Storage) (lid tid : String) (fault : Option SaveFault)
    (h : st.get_list lid = none ∨
      (∃ lst, st.get_list lid = some lst ∧ lst.tasks.any (fun t => t.id == tid) = false)) :
    st.delete_task lid tid fault = (.ok false, st) := by
  rcases h with h | ⟨lst, hg, htask⟩
  · simp [Storage.delete_task, h]
  · simp [Storage.delete_task, hg, htask]

theorem delete_task_found_none (st : Storage) (lid tid : String) (lst : TodoList)
    (hfs : TempWF st.fs) (hg : st.get_list lid = some lst)
    (htask : lst.tasks.any (fun t => t.id == tid) = true) :
    st.delete_task lid tid none =
      (.ok true,
       ⟨updateFirst (fun l => l.id == lid)
          (fun l => ⟨l.id, l.name, l.tasks.eraseP (fun t => t.id == tid)⟩) st.lists,
        st.gen,
        ⟨some (pyDumpsData (updateFirst (fun l => l.id == lid)
          (fun l => ⟨l.id, l.name, l.tasks.eraseP (fun t => t.id == tid)⟩) st.lists)),
         st.fs.temps, st.fs.tcounter + 1⟩⟩) := by
  simp only [Storage.delete_task, hg, htask, if_true, fsSave_none _ _ hfs]

theorem delete_task_found_fault (st : Storage) (lid tid : String) (lst : TodoList) (f : SaveFault)
    (hfs : TempWF st.fs) (hg : st.get_list lid = some lst)
    (htask : lst.tasks.any (fun t => t.id == tid) = true) :
    st.delete_task lid tid (some f) =
      (.error .ioError,
       ⟨updateFirst (fun l => l.id == lid)
          (fun l => ⟨l.id, l.name, l.tasks.eraseP (fun t => t.id == tid)⟩) st.lists,
        st.gen,
        ⟨st.fs.dataFile, st.fs.temps, st.fs.tcounter + 1⟩⟩) := by
  simp only [Storage.delete_task, hg, htask, if_true, fsSave_fault _ _ _ hfs]

theorem toggle_task_noop (st : Storage) (lid tid : String) (fault : Option SaveFault)
    (h : st.get_list lid = none ∨ (∃ lst, st.get_list lid = some lst ∧ lst.get_task tid = none)) :
    st.toggle_task lid tid fault = (.ok false, st) := by
  rcases h with h | ⟨lst, hg, htask⟩
  · simp [Storage.toggle_task, h]
  · simp [Storage.toggle_task, hg, htask]

theorem toggle_task_found_none (st : Storage) (lid tid : String) (lst : TodoList) (t : Task)
    (hfs : TempWF st.fs) (hg : st.get_list lid = some lst) (htask : lst.get_task tid = some t) :
    st.toggle_task lid tid none =
      (.ok true,
       ⟨updateFirst (fun l => l.id == lid)
          (fun l => ⟨l.id, l.name, updateFirst (fun x => x.id == tid)
            (fun x => ⟨x.id, x.title, !x.completed⟩) l.tasks⟩) st.lists,
        st.gen,
        ⟨some (pyDumpsData (updateFirst (fun l => l.id == lid)
          (fun l => ⟨l.id, l.name, updateFirst (fun x => x.id == tid)
            (fun x => ⟨x.id, x.title, !x.completed⟩) l.tasks⟩) st.lists)),
         st.fs.temps, st.fs.tcounter + 1⟩⟩) := by
  simp only [Storage.toggle_task, hg, htask, fsSave_none _ _ hfs]

theorem toggle_task_found_fault (st : Storage) (lid tid : String) (lst : TodoList) (t : Task)
    (f : SaveFault) (hfs : TempWF st.fs) (hg : st.get_list lid = some lst)
    (htask : lst.get_task tid = some t) :
    st.toggle_task lid tid (some f) =
      (.error .ioError,
       ⟨updateFirst (fun l => l.id == lid)
          (fun l => ⟨l.id, l.name, updateFirst (fun x => x.id == tid)
            (fun x => ⟨x.id, x.title, !x.completed⟩) l.tasks⟩) st.lists,
        st.gen,
        ⟨st.fs.dataFile, st.fs.temps, st.fs.tcounter + 1⟩⟩) := by
  simp only [Storage.toggle_task, hg, htask, fsSave_fault _ _ _ hfs]

/-- Claim C1: every mutating `Storage` operation that returns
successfully has written the serialisation of the whole in-memory
collection to the data file through a fresh uniquely-named temp file
leaving no temp file behind; if the save step fails after temp-file
creation, the temp file is removed, the data file is untouched, the
failure is propagated as an exception, and the in-memory mutation is
kept (not rolled back). -/
theorem c1_atomic_persistence (st : Storage) (hfs : TempWF st.fs) :
    (∀ name, ∃ l st1, st.create_list name none = (.ok l, st1) ∧ savedConsistent st st1) ∧
    (∀ name f, ∃ st1, st.create_list name (some f) = (.error .ioError, st1) ∧
      saveFailedClean st st1 ∧ st1.lists = (st.create_list name none).2.lists) ∧
    (∀ lid st1, st.delete_list lid none = (.ok true, st1) → savedConsistent st st1) ∧
    (∀ lid f e st1, st.delete_list lid (some f) = (.error e, st1) →
      saveFailedClean st st1 ∧ st1.lists = (st.delete_list lid none).2.lists) ∧
    (∀ lid f, (st.delete_list lid none).1 = .ok true →
      ∃ st1, st.delete_list lid (some f) = (.error .ioError, st1)) ∧
    (∀ lid nm st1, st.rename_list lid nm none = (.ok true, st1) → savedConsistent st st1) ∧
    (∀ lid nm f e st1, st.rename_list lid nm (some f) = (.error e, st1) →
      saveFailedClean st st1 ∧ st1.lists = (st.rename_list lid nm none).2.lists) ∧
    (∀ lid nm f, (st.rename_list lid nm none).1 = .ok true →
      ∃ st1, st.rename_list lid nm (some f) = (.error .ioError, st1)) ∧
    (∀ lid ti t st1, st.add_task lid ti none = (.ok (some t), st1) → savedConsistent st st1) ∧
    (∀ lid ti f e st1, st.add_task lid ti (some f) = (.error e, st1) →
      saveFailedClean st st1 ∧ st1.lists = (st.add_task lid ti none).2.lists) ∧
    (∀ lid ti f t, (st.add_task lid ti none).1 = .ok (some t) →
      ∃ st1, st.add_task lid ti (some f) = (.error .ioError, st1)) ∧
    (∀ lid tid ti st1, st.update_task lid tid ti none = (.ok true, st1) → savedConsistent st st1) ∧
    (∀ lid tid ti f e st1, st.update_task lid tid ti (some f) = (.error e, st1) →
      saveFailedClean st st1 ∧ st1.lists = (st.update_task lid tid ti none).2.lists) ∧
    (∀ lid tid ti f, (st.update_task lid tid ti none).1 = .ok true →
      ∃ st1, st.update_task lid tid ti (some f) = (.error .ioError, st1)) ∧
    (∀ lid tid st1, st.delete_task lid tid none = (.ok true, st1) → savedConsistent st st1) ∧
    (∀ lid tid f e st1, st.delete_task lid tid (some f) = (.error e, st1) →
      saveFailedClean st st1 ∧ st1.lists = (st.delete_task lid tid none).2.lists) ∧
    (∀ lid tid f, (st.delete_task lid tid none).1 = .ok true →
      ∃ st1, st.delete_task lid tid (some f) = (.error .ioError, st1)) ∧
    (∀ lid tid st1, st.toggle_task lid tid none = (.ok true, st1) → savedConsistent st st1) ∧
    (∀ lid tid f e st1, st.toggle_task lid tid (some f) = (.error e, st1) →
      saveFailedClean st st1 ∧ st1.lists = (st.toggle_task lid tid none).2.lists) ∧
    (∀ lid tid f, (st.toggle_task lid tid none).1 = .ok true →
      ∃ st1, st.toggle_task lid tid (some f) = (.error .ioError, st1)) := by
  refine ⟨?_, ?_, ?_, ?_, ?_, ?_, ?_, ?_, ?_, ?_, ?_, ?_, ?_, ?_, ?_, ?_, ?_, ?_, ?_, ?_⟩
  · intro name
    rw [create_list_none st name hfs]
    exact ⟨_, _, rfl, rfl, rfl⟩
  · intro name f
    rw [create_list_fault st name f hfs, create_list_none st name hfs]
    exact ⟨_, rfl, ⟨rfl, rfl⟩, rfl⟩
  · intro lid st1 h
    by_cases hany : st.lists.any (fun l => l.id == lid) = true
    · rw [delete_list_found_none st lid hfs hany] at h
      simp only [Prod.mk.injEq] at h
      obtain ⟨-, h2⟩ := h
      subst h2
      exact ⟨rfl, rfl⟩
    · rw [delete_list_noop st lid none (Bool.not_eq_true _ ▸ hany)] at h
      simp at h
  · intro lid f e st1 h
    by_cases hany : st.lists.any (fun l => l.id == lid) = true
    · rw [delete_list_found_fault st lid f hfs hany] at h
      simp only [Prod.mk.injEq] at h
      obtain ⟨-, h2⟩ := h
      subst h2
      rw [delete_list_found_none st lid hfs hany]
      exact ⟨⟨rfl, rfl⟩, rfl⟩
    · rw [delete_list_noop st lid (some f) (Bool.not_eq_true _ ▸ hany)] at h
      simp at h
  · intro lid f h
    by_cases hany : st.lists.any (fun l => l.id == lid) = true
    · exact ⟨_, delete_list_found_fault st lid f hfs hany⟩
    · rw [delete_list_noop st lid none (Bool.not_eq_true _ ▸ hany)] at h
      simp at h
  · intro lid nm st1 h
    cases hg : st.get_list lid with
    | none =>
        rw [rename_list_noop st lid nm none (Or.inl hg)] at h
        simp at h
    | some lst =>
        by_cases hnm : pyStrip nm = ""
        · rw [rename_list_noop st lid nm none (Or.inr hnm)] at h
          simp at h
        · rw [rename_list_found_none st lid nm lst hfs hg hnm] at h
          simp only [Prod.mk.injEq] at h
          obtain ⟨-, h2⟩ := h
          subst h2
          exact ⟨rfl, rfl⟩
  · intro lid nm f e st1 h
    cases hg : st.get_list lid with
    | none =>
        rw [rename_list_noop st lid nm (some f) (Or.inl hg)] at h
        simp at h
    | some lst =>
        by_cases hnm : pyStrip nm = ""
        · rw [rename_list_noop st lid nm (some f) (Or.inr hnm)] at h
          simp at h
        · rw [rename_list_found_fault st lid nm lst f hfs hg hnm] at h
          simp only [Prod.mk.injEq] at h
          obtain ⟨-, h2⟩ := h
          subst h2
          rw [rename_list_found_none st lid nm lst hfs hg hnm]
          exact ⟨⟨rfl, rfl⟩, rfl⟩
  · intro lid nm f h
    cases hg : st.get_list lid with
    | none =>
        rw [rename_list_noop st lid nm none (Or.inl hg)] at h
        simp at h
    | some lst =>
        by_cases hnm : pyStrip nm = ""
        · rw [rename_list_noop st lid nm none (Or.inr hnm)] at h
          simp at h
        · exact ⟨_, rename_list_found_fault st lid nm lst f hfs hg hnm⟩
  · intro lid ti t st1 h
    cases hg : st.get_list lid with
    | none =>
        rw [add_task_noop st lid ti none (Or.inl hg)] at h
        simp at h
    | some lst =>
        by_cases ht : pyStrip ti = ""
        · rw [add_task_noop st lid ti none (Or.inr ht)] at h
          simp at h
        · rw [add_task_found_none st lid ti lst hfs hg ht] at h
          simp only [Prod.mk.injEq] at h
          obtain ⟨-, h2⟩ := h
          subst h2
          exact ⟨rfl, rfl⟩
  · intro lid ti f e st1 h
    cases hg : st.get_list lid with
    | none =>
        rw [add_task_noop st lid ti (some f) (Or.inl hg)] at h
        simp at h
    | some lst =>
        by_cases ht : pyStrip ti = ""
        · rw [add_task_noop st lid ti (some f) (Or.inr ht)] at h
          simp at h
        · rw [add_task_found_fault st lid ti lst f hfs hg ht] at h
          simp only [Prod.mk.injEq] at h
          obtain ⟨-, h2⟩ := h
          subst h2
          rw [add_task_found_none st lid ti lst hfs hg ht]
          exact ⟨⟨rfl, rfl⟩, rfl⟩
  · intro lid ti f t h
    cases hg : st.get_list lid with
    | none =>
        rw [add_task_noop st lid ti none (Or.inl hg)] at h
        simp at h
    | some lst =>
        by_cases ht : pyStrip ti = ""
        · rw [add_task_noop st lid ti none (Or.inr ht)] at h
          simp at h
        · exact ⟨_, add_task_found_fault st lid ti lst f hfs hg ht⟩
  · intro lid tid ti st1 h
    cases hg : st.get_list lid with
    | none =>
        rw [update_task_noop st lid tid ti none (Or.inl hg)] at h
        simp at h
    | some lst =>
        cases htask : lst.get_task tid with
        | none =>
            rw [update_task_noop st lid tid ti none (Or.inr (Or.inl ⟨lst, hg, htask⟩))] at h
            simp at h
        | some t =>
            by_cases ht : pyStrip ti = ""
            · rw [update_task_noop st lid tid ti none (Or.inr (Or.inr ht))] at h
              simp at h
            · rw [update_task_found_none st lid tid ti lst t hfs hg htask ht] at h
              simp only [Prod.mk.injEq] at h
              obtain ⟨-, h2⟩ := h
              subst h2
              exact ⟨rfl, rfl⟩
  · intro lid tid ti f e st1 h
    cases hg : st.get_list lid with
    | none =>
        rw [update_task_noop st lid tid ti (some f) (Or.inl hg)] at h
        simp at h
    | some lst =>
        cases htask : lst.get_task tid with
        | none =>
            rw [update_task_noop st lid tid ti (some f) (Or.inr (Or.inl ⟨lst, hg, htask⟩))] at h
            simp at h
        | some t =>
            by_cases ht : pyStrip ti = ""
            · rw [update_task_noop st lid tid ti (some f) (Or.inr (Or.inr ht))] at h
              simp at h
            · rw [update_task_found_fault st lid tid ti lst t f hfs hg htask ht] at h
              simp only [Prod.mk.injEq] at h
              obtain ⟨-, h2⟩ := h
              subst h2
              rw [update_task_found_none st lid tid ti lst t hfs hg htask ht]
              exact ⟨⟨rfl, rfl⟩, rfl⟩
  · intro lid tid ti f h
    cases hg : st.get_list lid with
    | none =>
        rw [update_task_noop st lid tid ti none (Or.inl hg)] at h
        simp at h
    | some lst =>
        cases htask : lst.get_task tid with
        | none =>
            rw [update_task_noop st lid tid ti none (Or.inr (Or.inl ⟨lst, hg, htask⟩))] at h
            simp at h
        | some t =>
            by_cases ht : pyStrip ti = ""
            · rw [update_task_noop st lid tid ti none (Or.inr (Or.inr ht))] at h
              simp at h
            · exact ⟨_, update_task_found_fault st lid tid ti lst t f hfs hg htask ht⟩
  · intro lid tid st1 h
    cases hg : st.get_list lid with
    | none =>
        rw [delete_task_noop st lid tid none (Or.inl hg)] at h
        simp at h
    | some lst =>
        by_cases htask : lst.tasks.any (fun t => t.id == tid) = true
        · rw [delete_task_found_none st lid tid lst hfs hg htask] at h
          simp only [Prod.mk.injEq] at h
          obtain ⟨-, h2⟩ := h
          subst h2
          exact ⟨rfl, rfl⟩
        · rw [delete_task_noop st lid tid none
            (Or.inr ⟨lst, hg, Bool.not_eq_true _ ▸ htask⟩)] at h
          simp at h
  · intro lid tid f e st1 h
    cases hg : st.get_list lid with
    | none =>
        rw [delete_task_noop st lid tid (some f) (Or.inl hg)] at h
        simp at h
    | some lst =>
        by_cases htask : lst.tasks.any (fun t => t.id == tid) = true
        · rw [delete_task_found_fault st lid tid lst f hfs hg htask] at h
          simp only [Prod.mk.injEq] at h
          obtain ⟨-, h2⟩ := h
          subst h2
          rw [delete_task_found_none st lid tid lst hfs hg htask]
          exact ⟨⟨rfl, rfl⟩, rfl⟩
        · rw [delete_task_noop st lid tid (some f)
            (Or.inr ⟨lst, hg, Bool.not_eq_true _ ▸ htask⟩)] at h
          simp at h
  · intro lid tid f h
    cases hg : st.get_list lid with
    | none =>
        rw [delete_task_noop st lid tid none (Or.inl hg)] at h
        simp at h
    | some lst =>
        by_cases htask : lst.tasks.any (fun t => t.id == tid) = true
        · exact ⟨_, delete_task_found_fault st lid tid lst f hfs hg htask⟩
        · rw [delete_task_noop st lid tid none
            (Or.inr ⟨lst, hg, Bool.not_eq_true _ ▸ htask⟩)] at h
          simp at h
  · intro lid tid st1 h
    cases hg : st.get_list lid with
    | none =>
        rw [toggle_task_noop st lid tid none (Or.inl hg)] at h
        simp at h
    | some lst =>
        cases htask : lst.get_task tid with
        | none =>
            rw [toggle_task_noop st lid tid none (Or.inr ⟨lst, hg, htask⟩)] at h
            simp at h
        | some t =>
            rw [toggle_task_found_none st lid tid lst t hfs hg htask] at h
            simp only [Prod.mk.injEq] at h
            obtain ⟨-, h2⟩ := h
            subst h2
            exact ⟨rfl, rfl⟩
  · intro lid tid f e st1 h
    cases hg : st.get_list lid with
    | none =>
        rw [toggle_task_noop st lid tid (some f) (Or.inl hg)] at h
        simp at h
    | some lst =>
        cases htask : lst.get_task tid with
        | none =>
            rw [toggle_task_noop st lid tid (some f) (Or.inr ⟨lst, hg, htask⟩)] at h
            simp at h
        | some t =>
            rw [toggle_task_found_fault st lid tid lst t f hfs hg htask] at h
            simp only [Prod.mk.injEq] at h
            obtain ⟨-, h2⟩ := h
            subst h2
            rw [toggle_task_found_none st lid tid lst t hfs hg htask]
            exact ⟨⟨rfl, rfl⟩, rfl⟩
  · intro lid tid f h
    cases hg : st.get_list lid with
    | none =>
        rw [toggle_task_noop st lid tid none (Or.inl hg)] at h
        simp at h
    | some lst =>
        cases htask : lst.get_task tid with
        | none =>
            rw [toggle_task_noop st lid tid none (Or.inr ⟨lst, hg, htask⟩)] at h
            simp at h
        | some t =>
            exact ⟨_, toggle_task_found_fault st lid tid lst t f hfs hg htask⟩

/-- Concrete instantiation of the atomic-persistence theorem. -/
theorem c1_atomic_persistence_witness :
    ∃ l st1, Storage.create_list ⟨[], 0, ⟨none, [], 0⟩⟩ none none = (.ok l, st1) ∧
      savedConsistent ⟨[], 0, ⟨none, [], 0⟩⟩ st1 :=
  (c1_atomic_persistence ⟨[], 0, ⟨none, [], 0⟩⟩ (by intro p hp; simp at hp)).1 none

/-- Claim C5: operations addressed to an absent list or task id, or
given a name/title that is empty after trimming, raise nothing, signal
failure through their return value, and leave both the in-memory
collection and the file system untouched. -/
theorem c5_notfound_silent_noop (st : Storage) :
    (∀ lid, (∀ l ∈ st.lists, l.id ≠ lid) → st.get_list lid = none) ∧
    (∀ lid fault, (∀ l ∈ st.lists, l.id ≠ lid) →
      st.delete_list lid fault = (.ok false, st)) ∧
    (∀ lid nm fault, st.get_list lid = none ∨ pyStrip nm = "" →
      st.rename_list lid nm fault = (.ok false, st)) ∧
    (∀ lid ti fault, st.get_list lid = none ∨ pyStrip ti = "" →
      st.add_task lid ti fault = (.ok none, st)) ∧
    (∀ lid tid ti fault,
      st.get_list lid = none ∨ (∃ lst, st.get_list lid = some lst ∧ lst.get_task tid = none) ∨
        pyStrip ti = "" →
      st.update_task lid tid ti fault = (.ok false, st)) ∧
    (∀ lid tid fault,
      st.get_list lid = none ∨ (∃ lst, st.get_list lid = some lst ∧ ∀ t ∈ lst.tasks, t.id ≠ tid) →
      st.delete_task lid tid fault = (.ok false, st)) ∧
    (∀ lid tid fault,
      st.get_list lid = none ∨ (∃ lst, st.get_list lid = some lst ∧ lst.get_task tid = none) →
      st.toggle_task lid tid fault = (.ok false, st)) := by
  refine ⟨?_, ?_, ?_, ?_, ?_, ?_, ?_⟩
  · intro lid h
    apply List.find?_eq_none.mpr
    intro l hl
    simp [h l hl]
  · intro lid fault h
    apply delete_list_noop
    simp only [List.any_eq_false]
    intro l hl
    simp [h l hl]
  · intro lid nm fault h
    exact rename_list_noop st lid nm fault h
  · intro lid ti fault h
    exact add_task_noop st lid ti fault h
  · intro lid tid ti fault h
    rcases h with h | h | h
    · exact update_task_noop st lid tid ti fault (Or.inl h)
    · exact update_task_noop st lid tid ti fault (Or.inr (Or.inl h))
    · exact update_task_noop st lid tid ti fault (Or.inr (Or.inr h))
  · intro lid tid fault h
    rcases h with h | ⟨lst, hg, htask⟩
    · exact delete_task_noop st lid tid fault (Or.inl h)
    · refine delete_task_noop st lid tid fault (Or.inr ⟨lst, hg, ?_⟩)
      simp only [List.any_eq_false]
      intro t htm
      simp [htask t htm]
  · intro lid tid fault h
    exact toggle_task_noop st lid tid fault h

/-- Concrete instantiation of the silent no-op theorem. -/
theorem c5_notfound_silent_noop_witness :
    Storage.rename_list ⟨[], 0, ⟨none, [], 0⟩⟩ "x" "New name" none =
      (.ok false, ⟨[], 0, ⟨none, [], 0⟩⟩) :=
  (c5_notfound_silent_noop ⟨[], 0, ⟨none, [], 0⟩⟩).2.2.1 "x" "New name" none (Or.inl rfl)

theorem mkId_inj (a b : Nat) (h : mkId a = mkId b) : a = b := by
  have hd := congrArg String.data h
  simp only [mkId] at hd
  have hl := congrArg List.length hd
  simp only [List.length_replicate] at hl
  omega

/-- Claim C6: `add_task` on a missing list or a title trimming to
empty is an absent-result no-op; otherwise the trimmed title is stored
in a fresh uncompleted task appended at the end of that list, the
state is persisted, and the task is returned; trimming behaves as on
the spec's example. -/
theorem c6_add_task (st : Storage) :
    (∀ lid ti fault, st.get_list lid = none ∨ pyStrip ti = "" →
      st.add_task lid ti fault = (.ok none, st)) ∧
    (∀ lid ti lst, TempWF st.fs → st.get_list lid = some lst → pyStrip ti ≠ "" →
      ∃ st1, st.add_task lid ti none = (.ok (some ⟨mkId st.gen, pyStrip ti, false⟩), st1) ∧
        st1.get_list lid = some ⟨lst.id, lst.name, lst.tasks ++ [⟨mkId st.gen, pyStrip ti, false⟩]⟩ ∧
        savedConsistent st st1 ∧
        (IdsFrom st → ∀ l ∈ st.lists, ∀ t' ∈ l.tasks, t'.id ≠ mkId st.gen)) ∧
    pyStrip "  Buy milk  " = "Buy milk" := by
  refine ⟨fun lid ti fault h => add_task_noop st lid ti fault h, ?_, by decide⟩
  intro lid ti lst hfs hg ht
  refine ⟨_, add_task_found_none st lid ti lst hfs hg ht, ?_, ⟨rfl, rfl⟩, ?_⟩
  · simp only [Storage.get_list]
    rw [updateFirst_find? (fun l : TodoList => l.id == lid)
      (fun l : TodoList => ⟨l.id, l.name, l.tasks ++ [(⟨mkId st.gen, pyStrip ti, false⟩ : Task)]⟩)
      (fun x => rfl) st.lists]
    have hfind : st.lists.find? (fun l => l.id == lid) = some lst := hg
    rw [hfind]
    rfl
  · intro hids l hl t' ht'
    obtain ⟨k, hk, hkid⟩ := hids l hl t' ht'
    rw [hkid]
    intro hcontra
    have := mkId_inj k st.gen hcontra
    omega

/-- Concrete instantiation of the `add_task` theorem on the trimming
example. -/
theorem c6_add_task_witness :
    ∃ st1, Storage.add_task ⟨[⟨"l1", "Groceries", []⟩], 0, ⟨none, [], 0⟩⟩ "l1" "  Buy milk  " none =
      (.ok (some ⟨mkId 0, pyStrip "  Buy milk  ", false⟩), st1) ∧
      st1.get_list "l1" = some ⟨"l1", "Groceries", [⟨mkId 0, pyStrip "  Buy milk  ", false⟩]⟩ ∧
      savedConsistent ⟨[⟨"l1", "Groceries", []⟩], 0, ⟨none, [], 0⟩⟩ st1 ∧
      (IdsFrom ⟨[⟨"l1", "Groceries", []⟩], 0, ⟨none, [], 0⟩⟩ →
        ∀ l ∈ ([⟨"l1", "Groceries", []⟩] : List TodoList), ∀ t' ∈ l.tasks, t'.id ≠ mkId 0) :=
  (c6_add_task ⟨[⟨"l1", "Groceries", []⟩], 0, ⟨none, [], 0⟩⟩).2.1 "l1" "  Buy milk  "
    ⟨"l1", "Groceries", []⟩ (by intro p hp; simp at hp) rfl (by decide)

theorem TempWF_bump (fs : FS) (c : Option String) (h : TempWF fs) :
    TempWF ⟨c, fs.temps, fs.tcounter + 1⟩ :=
  fun p hp => Nat.lt_succ_of_lt (h p hp)

theorem toggle_lists_find (lists : List TodoList) (lid tid : String) (lst : TodoList)
    (hg : lists.find? (fun l => l.id == lid) = some lst) :
    (updateFirst (fun l : TodoList => l.id == lid)
      (fun l : TodoList => ⟨l.id, l.name, updateFirst (fun x => x.id == tid)
        (fun x => ⟨x.id, x.title, !x.completed⟩) l.tasks⟩) lists).find? (fun l => l.id == lid) =
      some ⟨lst.id, lst.name, updateFirst (fun x => x.id == tid)
        (fun x => ⟨x.id, x.title, !x.completed⟩) lst.tasks⟩ := by
  rw [updateFirst_find? (fun l : TodoList => l.id == lid)
    (fun l : TodoList => ⟨l.id, l.name, updateFirst (fun x => x.id == tid)
      (fun x => ⟨x.id, x.title, !x.completed⟩) l.tasks⟩) (fun x => rfl) lists, hg]
  rfl

theorem toggle_tasks_find (tasks : List Task) (tid : String) (t : Task)
    (ht : tasks.find? (fun x => x.id == tid) = some t) :
    (updateFirst (fun x : Task => x.id == tid)
      (fun x : Task => ⟨x.id, x.title, !x.completed⟩) tasks).find? (fun x => x.id == tid) =
      some ⟨t.id, t.title, !t.completed⟩ := by
  rw [updateFirst_find? (fun x : Task => x.id == tid)
    (fun x : Task => ⟨x.id, x.title, !x.completed⟩) (fun x => rfl) tasks, ht]
  rfl

theorem toggle_toggle_lists (lists : List TodoList) (lid tid : String) :
    updateFirst (fun l : TodoList => l.id == lid)
      (fun l : TodoList => ⟨l.id, l.name, updateFirst (fun x => x.id == tid)
        (fun x => ⟨x.id, x.title, !x.completed⟩) l.tasks⟩)
      (updateFirst (fun l : TodoList => l.id == lid)
        (fun l : TodoList => ⟨l.id, l.name, updateFirst (fun x => x.id == tid)
          (fun x => ⟨x.id, x.title, !x.completed⟩) l.tasks⟩) lists) = lists := by
  rw [updateFirst_comp (fun l : TodoList => l.id == lid)
    (fun l : TodoList => ⟨l.id, l.name, updateFirst (fun x => x.id == tid)
      (fun x => ⟨x.id, x.title, !x.completed⟩) l.tasks⟩)
    (fun l : TodoList => ⟨l.id, l.name, updateFirst (fun x => x.id == tid)
      (fun x => ⟨x.id, x.title, !x.completed⟩) l.tasks⟩)
    (fun x => rfl) lists]
  apply updateFirst_id
  intro x
  show (⟨x.id, x.name, updateFirst (fun y : Task => y.id == tid)
    (fun y : Task => ⟨y.id, y.title, !y.completed⟩)
    (updateFirst (fun y : Task => y.id == tid)
      (fun y : Task => ⟨y.id, y.title, !y.completed⟩) x.tasks)⟩ : TodoList) = x
  rw [updateFirst_comp (fun y : Task => y.id == tid)
    (fun y : Task => ⟨y.id, y.title, !y.completed⟩)
    (fun y : Task => ⟨y.id, y.title, !y.completed⟩) (fun y => rfl) x.tasks]
  rw [updateFirst_id (fun y : Task => y.id == tid)
    (fun y : Task => ⟨y.id, y.title, !(!y.completed)⟩) (fun y => by simp) x.tasks]

/-- Claim C7: `toggle_task` reports failure on a missing list or task
and otherwise flips exactly that task's completion flag; toggling the
same task twice succeeds both times and restores the original flag and
collection. -/
theorem c7_toggle_symmetry (st : Storage) (lid tid : String) :
    ((st.get_list lid = none ∨ (∃ lst, st.get_list lid = some lst ∧ lst.get_task tid = none)) →
      ∀ fault, st.toggle_task lid tid fault = (.ok false, st)) ∧
    (∀ lst t, TempWF st.fs → st.get_list lid = some lst → lst.get_task tid = some t →
      ∃ st1 st2, st.toggle_task lid tid none = (.ok true, st1) ∧
        (st1.get_list lid).bind (fun l => l.get_task tid) = some ⟨t.id, t.title, !t.completed⟩ ∧
        st1.toggle_task lid tid none = (.ok true, st2) ∧
        st2.lists = st.lists ∧
        (st2.get_list lid).bind (fun l => l.get_task tid) = some t) := by
  constructor
  · intro h fault
    exact toggle_task_noop st lid tid fault h
  · intro lst t hfs hg htask
    have hg1 := toggle_lists_find st.lists lid tid lst hg
    have htask1 := toggle_tasks_find lst.tasks tid t htask
    have hfs1 := TempWF_bump st.fs (some (pyDumpsData (updateFirst (fun l : TodoList => l.id == lid)
      (fun l : TodoList => ⟨l.id, l.name, updateFirst (fun x => x.id == tid)
        (fun x => ⟨x.id, x.title, !x.completed⟩) l.tasks⟩) st.lists))) hfs
    rw [toggle_task_found_none st lid tid lst t hfs hg htask]
    refine ⟨_, _, rfl, ?_, toggle_task_found_none _ lid tid _ _ hfs1 hg1 htask1, ?_, ?_⟩
    · show (Option.bind (List.find? _ _) _) = _
      rw [hg1]
      show (updateFirst (fun x : Task => x.id == tid)
        (fun x : Task => ⟨x.id, x.title, !x.completed⟩) lst.tasks).find? (fun x => x.id == tid) = _
      rw [htask1]
    · show updateFirst _ _ (updateFirst _ _ st.lists) = st.lists
      exact toggle_toggle_lists st.lists lid tid
    · show (Option.bind (List.find? _ (updateFirst _ _ (updateFirst _ _ st.lists))) _) = _
      rw [toggle_toggle_lists st.lists lid tid]
      have hfind : st.lists.find? (fun l => l.id == lid) = some lst := hg
      rw [hfind]
      exact htask

/-- Concrete instantiation of the toggle-symmetry theorem. -/
theorem c7_toggle_symmetry_witness :
    ∃ st1 st2,
      Storage.toggle_task ⟨[⟨"l1", "G", [⟨"t1", "Milk", false⟩]⟩], 0, ⟨none, [], 0⟩⟩ "l1" "t1" none =
        (.ok true, st1) ∧
      (st1.get_list "l1").bind (fun l => l.get_task "t1") = some ⟨"t1", "Milk", !false⟩ ∧
      st1.toggle_task "l1" "t1" none = (.ok true, st2) ∧
      st2.lists = [⟨"l1", "G", [⟨"t1", "Milk", false⟩]⟩] ∧
      (st2.get_list "l1").bind (fun l => l.get_task "t1") = some ⟨"t1", "Milk", false⟩ :=
  (c7_toggle_symmetry ⟨[⟨"l1", "G", [⟨"t1", "Milk", false⟩]⟩], 0, ⟨none, [], 0⟩⟩ "l1" "t1").2
    ⟨"l1", "G", [⟨"t1", "Milk", false⟩]⟩ ⟨"t1", "Milk", false⟩
    (by intro p hp; simp at hp) rfl rfl

theorem hexDigit_not_space (d : Nat) (hd : d < 10) : pyIsSpace (hexDigit d) = false := by
  interval_cases d <;> decide

theorem natDigitsRevAux_digits :
    ∀ fuel n : Nat, ∀ c ∈ natDigitsRevAux fuel n, ∃ d, d < 10 ∧ c = hexDigit d := by
  intro fuel
  induction fuel with
  | zero => intro n c hc; simp [natDigitsRevAux] at hc
  | succ m ih =>
      intro n c hc
      rw [natDigitsRevAux] at hc
      by_cases h0 : n = 0
      · simp [h0] at hc
      · rw [if_neg h0] at hc
        rcases List.mem_cons.mp hc with rfl | hc
        · exact ⟨n % 10, Nat.mod_lt _ (by omega), rfl⟩
        · exact ih (n / 10) c hc

theorem natDigitsRev_digits (n : Nat) :
    ∀ c ∈ natDigitsRev n, ∃ d, d < 10 ∧ c = hexDigit d :=
  natDigitsRevAux_digits n n

theorem natStr_not_space (n : Nat) : ∀ c ∈ (natStr n).data, pyIsSpace c = false := by
  intro c hc
  by_cases h0 : n = 0
  · subst h0
    have hc2 : c ∈ ['0'] := hc
    have : c = '0' := by simpa using hc2
    rw [this]
    decide
  · simp only [natStr, if_neg h0] at hc
    have hc2 : c ∈ (natDigitsRev n).reverse := hc
    rw [List.mem_reverse] at hc2
    obtain ⟨d, hd, rfl⟩ := natDigitsRev_digits n c hc2
    exact hexDigit_not_space d hd

theorem natStr_ne_nil (n : Nat) : (natStr n).data ≠ [] := by
  by_cases h0 : n = 0
  · subst h0
    simp [natStr]
  · simp only [natStr, if_neg h0]
    show (natDigitsRev n).reverse ≠ []
    match hn : n with
    | 0 => omega
    | m + 1 => simp [natDigitsRev, natDigitsRevAux]

theorem pyStripList_noop (cs : List Char)
    (hhead : ∀ c, cs.head? = some c → pyIsSpace c = false)
    (hlast : ∀ c, cs.getLast? = some c → pyIsSpace c = false) :
    pyStripList cs = cs := by
  match cs with
  | [] => rfl
  | a :: as =>
      have ha : pyIsSpace a = false := hhead a rfl
      show ((List.dropWhile pyIsSpace (a :: as)).reverse.dropWhile pyIsSpace).reverse = a :: as
      rw [List.dropWhile_cons, ha]
      simp only [Bool.false_eq_true, if_false]
      match hr : (a :: as).reverse with
      | [] => exact absurd (congrArg List.length hr) (by simp)
      | b :: bs =>
          have hb : (a :: as).getLast? = some b := by
            rw [← List.head?_reverse, hr]
            rfl
          rw [List.dropWhile_cons, hlast b hb]
          simp only [Bool.false_eq_true, if_false]
          rw [← hr, List.reverse_reverse]

theorem pyStrip_listName (n : Nat) : pyStrip ("List " ++ natStr n) = "List " ++ natStr n := by
  have hdata : ("List " ++ natStr n).data = 'L' :: 'i' :: 's' :: 't' :: ' ' :: (natStr n).data := rfl
  have h1 : ∀ c, ('L' :: 'i' :: 's' :: 't' :: ' ' :: (natStr n).data).head? = some c →
      pyIsSpace c = false := by
    intro c hc
    simp only [List.head?_cons, Option.some.injEq] at hc
    subst hc
    decide
  have h2 : ∀ c, ('L' :: 'i' :: 's' :: 't' :: ' ' :: (natStr n).data).getLast? = some c →
      pyIsSpace c = false := by
    intro c hc
    have hc2 : (['L', 'i', 's', 't', ' '] ++ (natStr n).data).getLast? = some c := hc
    rw [List.getLast?_append_of_ne_nil _ (natStr_ne_nil n)] at hc2
    obtain ⟨hne, hco⟩ := List.mem_getLast?_eq_getLast hc2
    exact natStr_not_space n c (hco ▸ List.getLast_mem hne)
  show String.mk (pyStripList ("List " ++ natStr n).data) = "List " ++ natStr n
  rw [hdata, pyStripList_noop _ h1 h2, ← hdata]

theorem nextNumAux_spec (used : List Int) :
    ∀ (fuel n : Nat), (∀ m : Nat, 1 ≤ m → m < n → (m : Int) ∈ used) →
      used.length + 2 ≤ n + fuel →
      (∀ m : Nat, 1 ≤ m → m < nextNumAux used fuel n → (m : Int) ∈ used) ∧
      ((nextNumAux used fuel n : Int) ∉ used) ∧ n ≤ nextNumAux used fuel n := by
  intro fuel
  induction fuel with
  | zero =>
      intro n hinv harith
      exfalso
      have hsub : (Finset.range (n - 1)).image (fun i : Nat => (i : Int) + 1) ⊆ used.toFinset := by
        intro x hx
        simp only [Finset.mem_image, Finset.mem_range] at hx
        obtain ⟨i, hi, rfl⟩ := hx
        rw [List.mem_toFinset]
        have hmem := hinv (i + 1) (by omega) (by omega)
        exact_mod_cast hmem
      have hcard : ((Finset.range (n - 1)).image (fun i : Nat => (i : Int) + 1)).card = n - 1 := by
        rw [Finset.card_image_of_injective _ (fun a b hab => by omega)]
        simp
      have hle := Finset.card_le_card hsub
      have hlen := List.toFinset_card_le used
      omega
  | succ fuel ih =>
      intro n hinv harith
      rw [nextNumAux]
      by_cases hmem : (n : Int) ∈ used
      · rw [if_pos hmem]
        have hinv1 : ∀ m : Nat, 1 ≤ m → m < n + 1 → (m : Int) ∈ used := by
          intro m h1 h2
          by_cases hm : m = n
          · subst hm; exact hmem
          · exact hinv m h1 (by omega)
        obtain ⟨ha, hb, hc⟩ := ih (n + 1) hinv1 (by omega)
        exact ⟨ha, hb, by omega⟩
      · rw [if_neg hmem]
        exact ⟨hinv, hmem, Nat.le_refl n⟩

theorem nextNum_spec (used : List Int) :
    1 ≤ nextNum used ∧ ((nextNum used : Int) ∉ used) ∧
      ∀ m : Nat, 1 ≤ m → m < nextNum used → (m : Int) ∈ used := by
  have h := nextNumAux_spec used (used.length + 1) 1 (fun m h1 h2 => by omega) (by omega)
  exact ⟨h.2.2, h.2.1, h.1⟩

/-- Claim C3: `create_list` with an absent or whitespace-only name
auto-generates the name with the smallest positive integer suffix not
already in use among names carrying the pattern, appends the new list
at the end, and returns it; on the spec's three examples the generated
names are the expected ones. -/
theorem c3_autoname (st : Storage) :
    (∀ name, name = none ∨ (∃ s, name = some s ∧ pyStrip s = "") →
      ∃ nl st1 n, st.create_list name none = (.ok nl, st1) ∧
        nl.name = "List " ++ natStr n ∧ 1 ≤ n ∧ ((n : Int) ∉ usedNums st.lists) ∧
        (∀ m : Nat, 1 ≤ m → m < n → (m : Int) ∈ usedNums st.lists) ∧
        st1.lists = st.lists ++ [nl] ∧ nl.tasks = []) ∧
    (Storage.create_list ⟨[⟨"a", "List 1", []⟩, ⟨"b", "List 3", []⟩], 0, ⟨none, [], 0⟩⟩
      none none).1 = .ok ⟨mkId 0, "List 2", []⟩ ∧
    (Storage.create_list ⟨[], 0, ⟨none, [], 0⟩⟩ none none).1 = .ok ⟨mkId 0, "List 1", []⟩ ∧
    (Storage.create_list ⟨[⟨"a", "List 1", []⟩, ⟨"b", "List 2", []⟩], 0, ⟨none, [], 0⟩⟩
      none none).1 = .ok ⟨mkId 0, "List 3", []⟩ := by
  refine ⟨?_, by decide, by decide, by decide⟩
  intro name hname
  have hchosen : createChosen st name = autoName st.lists := by
    rcases hname with rfl | ⟨s, rfl, hs⟩
    · rfl
    · simp [createChosen, hs]
  have hstrip : pyStrip (createChosen st name) = autoName st.lists := by
    rw [hchosen]
    exact pyStrip_listName (nextNum (usedNums st.lists))
  obtain ⟨h1, h2, h3⟩ := nextNum_spec (usedNums st.lists)
  exact ⟨⟨mkId st.gen, pyStrip (createChosen st name), []⟩, _, nextNum (usedNums st.lists),
    rfl, hstrip, h1, h2, h3, rfl, rfl⟩

/-- Concrete instantiation of the auto-naming theorem. -/
theorem c3_autoname_witness :
    ∃ nl st1 n,
      Storage.create_list ⟨[⟨"a", "List 1", []⟩, ⟨"b", "List 3", []⟩], 7, ⟨none, [], 0⟩⟩
        none none = (.ok nl, st1) ∧
      nl.name = "List " ++ natStr n ∧ 1 ≤ n ∧
      ((n : Int) ∉ usedNums [⟨"a", "List 1", []⟩, ⟨"b", "List 3", []⟩]) ∧
      (∀ m : Nat, 1 ≤ m → m < n →
        (m : Int) ∈ usedNums [⟨"a", "List 1", []⟩, ⟨"b", "List 3", []⟩]) ∧
      st1.lists = [⟨"a", "List 1", []⟩, ⟨"b", "List 3", []⟩] ++ [nl] ∧ nl.tasks = [] :=
  (c3_autoname ⟨[⟨"a", "List 1", []⟩, ⟨"b", "List 3", []⟩], 7, ⟨none, [], 0⟩⟩).1
    none (Or.inl rfl)

/-- Claim C2 is refuted: a data file whose content is valid JSON but
not a JSON object (here the JSON document `"hello"`) makes the load
step raise an attribute error, which the constructor's handler (which
catches only decode and I/O errors) does not swallow — so construction
can fail because of file content. -/
theorem c2_load_counterexample :
    loadLists (LoadInput.parsed (JValue.str "hello")) = .error .attributeError := rfl

/-- Claim C2 (amended): a missing data file, an unreadable data file
and a file that is not valid JSON all yield the empty collection
without an error; likewise a parsed object without the key for the
lists.  (Valid JSON of a non-object shape can still raise, see the
counterexample.) -/
theorem c2_load_recovery :
    loadLists .noFile = .ok [] ∧
    loadLists .ioError = .ok [] ∧
    loadLists .notJson = .ok [] ∧
    (∀ fields, jlookup fields "lists" = none →
      loadLists (.parsed (.obj fields)) = .ok []) := by
  refine ⟨rfl, rfl, rfl, ?_⟩
  intro fields h
  simp [loadLists, h]

/-- Concrete instantiation of the load-recovery theorem. -/
theorem c2_load_recovery_witness :
    loadLists (.parsed (.obj [])) = .ok [] :=
  c2_load_recovery.2.2.2 [] rfl

theorem task_roundtrip (t : Task) : Task.from_dict (Task.to_dict t) = .ok t := rfl

theorem tasks_mapM_roundtrip :
    ∀ ts : List Task, (ts.map Task.to_dict).mapM Task.from_dict = .ok ts := by
  intro ts
  induction ts with
  | nil => rfl
  | cons t ts ih =>
      rw [List.map_cons, List.mapM_cons, task_roundtrip, ih]
      rfl

/-- Claim C8: serialisation round-trips (`from_dict` after `to_dict`
recovers the value exactly, for empty task sequences too), and
`from_dict` treats a missing or empty tasks sequence as an empty task
list. -/
theorem c8_roundtrip :
    (∀ l : TodoList, TodoList.from_dict (TodoList.to_dict l) = .ok l) ∧
    (∀ i n : String,
      TodoList.from_dict (.obj [("id", .str i), ("name", .str n)]) = .ok ⟨i, n, []⟩) ∧
    (∀ i n : String,
      TodoList.from_dict (.obj [("id", .str i), ("name", .str n), ("tasks", .arr [])]) =
        .ok ⟨i, n, []⟩) := by
  refine ⟨?_, fun i n => rfl, fun i n => rfl⟩
  intro l
  obtain ⟨i, n, ts⟩ := l
  show ((ts.map Task.to_dict).mapM Task.from_dict).map
    (fun tasks => (⟨i, n, tasks⟩ : TodoList)) = Except.ok ⟨i, n, ts⟩
  rw [tasks_mapM_roundtrip ts]
  rfl

/-- Claim C9: the data directory is the override when given, else the
data-home environment value, else the home fallback, each with the
application folder appended; the data file is the JSON document
`data.json` inside it; a save writes the pretty-printed dump of the
mapping with single key holding the lists in order; the dump uses
two-space indentation and leaves non-ASCII characters unescaped, as
evaluated on a concrete collection. -/
theorem c9_persistence_format :
    (∀ d x h, resolveDataDir (some d) x h = d) ∧
    (∀ x h, resolveDataDir none (some x) h = x ++ "/simple-todo") ∧
    (∀ h, resolveDataDir none none h = h ++ "/.local/share/simple-todo") ∧
    (∀ dir, dataFilePath dir = dir ++ "/data.json") ∧
    (∀ lists fs, (fsSave (pyDumpsData lists) none fs).2.dataFile =
      some (dumpJ 0 (.obj [("lists", .arr (lists.map TodoList.to_dict))]))) ∧
    dumpJ 0 (dataVal [⟨"a1", "Café", [⟨"t1", "naïve ☕", true⟩]⟩]) =
      "\x7b\n  \"lists\": [\n    \x7b\n      \"id\": \"a1\",\n      \"name\": \"Café\",\n      \"tasks\": [\n        \x7b\n          \"id\": \"t1\",\n          \"title\": \"naïve ☕\",\n          \"completed\": true\n        \x7d\n      ]\n    \x7d\n  ]\n\x7d" := by
  refine ⟨fun d x h => rfl, fun x h => rfl, ?_, fun dir => rfl, fun lists fs => rfl, ?_⟩
  · intro h
    apply String.ext
    show (h.data ++ "/.local/share".data) ++ "/simple-todo".data = h.data ++ _
    rw [List.append_assoc]
    rfl
  · simp only [dataVal, List.map_cons, List.map_nil, TodoList.to_dict, Task.to_dict,
      dumpJ, dumpItems, dumpFields]
    rfl

theorem frame_of_updateFirst (lists : List TodoList) (lid : String) (g : TodoList → TodoList)
    (hid : ∀ x, (g x).id = x.id) (lst : TodoList)
    (hfind : lists.find? (fun l => l.id == lid) = some lst) :
    FrameOk lists (updateFirst (fun l => l.id == lid) g lists) lid := by
  obtain ⟨pre, post, h1, h2, h3⟩ :=
    updateFirst_decomp (fun l => l.id == lid) g lists lst hfind
  have hlid : lst.id = lid := by
    have := List.find?_some hfind
    simpa using this
  refine ⟨pre, lst, post, h1, hlid, ?_, Or.inr ⟨g lst, by rw [hid lst, hlid], h3⟩⟩
  intro y hy
  have := h2 y hy
  simpa using this

theorem frame_of_eraseP (lists : List TodoList) (lid : String)
    (h : lists.any (fun l => l.id == lid) = true) :
    FrameOk lists (lists.eraseP (fun l => l.id == lid)) lid := by
  obtain ⟨x, hx, hpx⟩ := List.any_eq_true.mp h
  obtain ⟨a, l₁, l₂, hnb, hpa, hl, he⟩ :=
    @List.exists_of_eraseP TodoList (fun l => l.id == lid) lists x hx hpx
  refine ⟨l₁, a, l₂, hl, by simpa using hpa, ?_, Or.inl he⟩
  intro y hy
  have := hnb y hy
  simpa using this

/-- Claim C10: a successful mutating operation addressed to one list
touches only the first list carrying the addressed id: every other
list keeps its id, name and tasks, and the relative order of the
remaining lists is preserved. -/
theorem c10_frame (st : Storage) (hfs : TempWF st.fs) :
    (∀ lid nm lst fault, st.get_list lid = some lst → pyStrip nm ≠ "" →
      FrameOk st.lists ((st.rename_list lid nm fault).2).lists lid) ∧
    (∀ lid ti lst fault, st.get_list lid = some lst → pyStrip ti ≠ "" →
      FrameOk st.lists ((st.add_task lid ti fault).2).lists lid) ∧
    (∀ lid tid ti lst t fault, st.get_list lid = some lst → lst.get_task tid = some t →
      pyStrip ti ≠ "" →
      FrameOk st.lists ((st.update_task lid tid ti fault).2).lists lid) ∧
    (∀ lid tid lst fault, st.get_list lid = some lst →
      lst.tasks.any (fun t => t.id == tid) = true →
      FrameOk st.lists ((st.delete_task lid tid fault).2).lists lid) ∧
    (∀ lid tid lst t fault, st.get_list lid = some lst → lst.get_task tid = some t →
      FrameOk st.lists ((st.toggle_task lid tid fault).2).lists lid) ∧
    (∀ lid fault, st.lists.any (fun l => l.id == lid) = true →
      FrameOk st.lists ((st.delete_list lid fault).2).lists lid) := by
  refine ⟨?_, ?_, ?_, ?_, ?_, ?_⟩
  · intro lid nm lst fault hg hnm
    cases fault with
    | none =>
        rw [rename_list_found_none st lid nm lst hfs hg hnm]
        exact frame_of_updateFirst st.lists lid _ (fun x => rfl) lst hg
    | some f =>
        rw [rename_list_found_fault st lid nm lst f hfs hg hnm]
        exact frame_of_updateFirst st.lists lid _ (fun x => rfl) lst hg
  · intro lid ti lst fault hg ht
    cases fault with
    | none =>
        rw [add_task_found_none st lid ti lst hfs hg ht]
        exact frame_of_updateFirst st.lists lid _ (fun x => rfl) lst hg
    | some f =>
        rw [add_task_found_fault st lid ti lst f hfs hg ht]
        exact frame_of_updateFirst st.lists lid _ (fun x => rfl) lst hg
  · intro lid tid ti lst t fault hg htask ht
    cases fault with
    | none =>
        rw [update_task_found_none st lid tid ti lst t hfs hg htask ht]
        exact frame_of_updateFirst st.lists lid _ (fun x => rfl) lst hg
    | some f =>
        rw [update_task_found_fault st lid tid ti lst t f hfs hg htask ht]
        exact frame_of_updateFirst st.lists lid _ (fun x => rfl) lst hg
  · intro lid tid lst fault hg htask
    cases fault with
    | none =>
        rw [delete_task_found_none st lid tid lst hfs hg htask]
        exact frame_of_updateFirst st.lists lid _ (fun x => rfl) lst hg
    | some f =>
        rw [delete_task_found_fault st lid tid lst f hfs hg htask]
        exact frame_of_updateFirst st.lists lid _ (fun x => rfl) lst hg
  · intro lid tid lst t fault hg htask
    cases fault with
    | none =>
        rw [toggle_task_found_none st lid tid lst t hfs hg htask]
        exact frame_of_updateFirst st.lists lid _ (fun x => rfl) lst hg
    | some f =>
        rw [toggle_task_found_fault st lid tid lst t f hfs hg htask]
        exact frame_of_updateFirst st.lists lid _ (fun x => rfl) lst hg
  · intro lid fault h
    cases fault with
    | none =>
        rw [delete_list_found_none st lid hfs h]
        exact frame_of_eraseP st.lists lid h
    | some f =>
        rw [delete_list_found_fault st lid f hfs h]
        exact frame_of_eraseP st.lists lid h

/-- Concrete instantiation of the frame theorem. -/
theorem c10_frame_witness :
    FrameOk [⟨"l1", "A", []⟩, ⟨"l2", "B", []⟩]
      ((Storage.rename_list ⟨[⟨"l1", "A", []⟩, ⟨"l2", "B", []⟩], 0, ⟨none, [], 0⟩⟩
        "l2" "C" none).2).lists "l2" :=
  (c10_frame ⟨[⟨"l1", "A", []⟩, ⟨"l2", "B", []⟩], 0, ⟨none, [], 0⟩⟩
    (by intro p hp; simp at hp)).1 "l2" "C" ⟨"l2", "B", []⟩ none rfl (by decide)

theorem find?_key_append_fresh {α : Type} (heap : List (Nat × α)) (c r : Nat) (o : α)
    (h : (c == r) = false) :
    (heap ++ [(c, o)]).find? (fun p => p.1 == r) = heap.find? (fun p => p.1 == r) := by
  induction heap with
  | nil => simp [List.find?, h]
  | cons a as ih =>
      cases ha : (a.1 == r) <;>
        simp [List.find?_cons, ha, ih]

theorem deref_append {α : Type} (heap : List (Nat × α)) (c : Nat) (o : α) (r : Nat)
    (hrc : r ≠ c) :
    deref (heap ++ [(c, o)]) r = deref heap r := by
  have h : (c == r) = false := beq_eq_false_iff_ne.mpr (fun hcr => hrc hcr.symm)
  simp only [deref, find?_key_append_fresh heap c r o h]

theorem deref_map_update {α : Type} (heap : List (Nat × α)) (r : Nat) (f : α → α) (q : Nat) :
    deref (heap.map (fun p => if p.1 == r then (p.1, f p.2) else p)) q =
      if q = r then (deref heap q).map f else deref heap q := by
  induction heap with
  | nil => by_cases hqr : q = r <;> simp [deref, hqr]
  | cons a as ih =>
      obtain ⟨k, v⟩ := a
      simp only [List.map_cons]
      by_cases hkq : k = q
      · subst hkq
        by_cases hkr : k = r
        · subst hkr
          rw [if_pos rfl]
          simp only [deref, beq_self_eq_true, if_true]
          rw [List.find?_cons_of_pos _ (by simp), List.find?_cons_of_pos _ (by simp)]
          rfl
        · rw [if_neg (fun hc : k = r => hkr hc)]
          have hb : (k == r) = false := beq_eq_false_iff_ne.mpr hkr
          simp only [deref, hb, Bool.false_eq_true, if_false]
          rw [List.find?_cons_of_pos _ (by simp), List.find?_cons_of_pos _ (by simp)]
      · have hb : (k == q) = false := beq_eq_false_iff_ne.mpr hkq
        by_cases hkr : (k == r) = true
        · rw [if_pos hkr]
          simp only [deref] at ih ⊢
          rw [List.find?_cons_of_neg _ (by simp [hb]), List.find?_cons_of_neg _ (by simp [hb])]
          exact ih
        · rw [if_neg hkr]
          simp only [deref] at ih ⊢
          rw [List.find?_cons_of_neg _ (by simp [hb]), List.find?_cons_of_neg _ (by simp [hb])]
          exact ih

/-- Claim C4 is refuted: the sequence returned by `get_lists` shares
the list objects with the collection, so a later in-place mutation
(here a rename) is observable through the snapshot: after the rename
the snapshot no longer shows the state at the time of the call. -/
theorem c4_snapshot_counterexample :
    viewRefs ((HStorage.rename_list ⟨[0], [(0, ⟨"L1", "Groceries", []⟩)], [], 1⟩ "L1" "Work").2)
        (HStorage.get_lists ⟨[0], [(0, ⟨"L1", "Groceries", []⟩)], [], 1⟩) ≠
      viewRefs ⟨[0], [(0, ⟨"L1", "Groceries", []⟩)], [], 1⟩
        (HStorage.get_lists ⟨[0], [(0, ⟨"L1", "Groceries", []⟩)], [], 1⟩) := by
  decide

/-- Claim C4 (amended): the snapshot returned by `get_lists` is a
shallow copy: creating or deleting lists afterwards does not change
what the snapshot shows, but an in-place mutation such as a rename is
visible through it, the snapshot showing exactly the renamed view. -/
theorem c4_shallow_snapshot (st : HStorage) :
    (HWF st → ∀ name,
      viewRefs ((st.create_list name).2) st.get_lists = viewRefs st st.get_lists) ∧
    (∀ lid, viewRefs ((st.delete_list lid).2) st.get_lists = viewRefs st st.get_lists) ∧
    (∀ lid nm r st1, st.get_list lid = some r → st.rename_list lid nm = (true, st1) →
      viewRefs st1 st.get_lists = st.get_lists.map (fun q =>
        if q = r then (viewList st q).map (fun vl => ⟨vl.id, pyStrip nm, vl.tasks⟩)
        else viewList st q)) := by
  refine ⟨?_, ?_, ?_⟩
  · intro hwf name
    apply List.map_congr_left
    intro r hr
    show (deref (st.listHeap ++ [(st.counter, _)]) r).map _ = _
    rw [deref_append st.listHeap st.counter _ r (Nat.ne_of_lt (hwf r hr))]
    rfl
  · intro lid
    cases hg : st.get_list lid with
    | none => simp [HStorage.delete_list, hg]
    | some r =>
        simp only [HStorage.delete_list, hg]
        rfl
  · intro lid nm r st1 hg heq
    simp only [HStorage.rename_list, hg] at heq
    by_cases hnm : (pyStrip nm == "") = true
    · rw [if_pos hnm] at heq
      simp at heq
    · rw [if_neg hnm] at heq
      simp only [Prod.mk.injEq, true_and] at heq
      subst heq
      apply List.map_congr_left
      intro q hq
      show (deref (st.listHeap.map (fun p => if p.1 == r then
        (p.1, ⟨p.2.id, pyStrip nm, p.2.taskRefs⟩) else p)) q).map _ = _
      rw [deref_map_update st.listHeap r (fun hl => ⟨hl.id, pyStrip nm, hl.taskRefs⟩) q]
      by_cases hqr : q = r
      · rw [if_pos hqr, if_pos hqr]
        cases hd : deref st.listHeap q with
        | none => simp [viewList, hd]
        | some hl => simp [viewList, hd]; rfl
      · rw [if_neg hqr, if_neg hqr]
        rfl

/-- Concrete instantiation of the shallow-snapshot theorem. -/
theorem c4_shallow_snapshot_witness :
    viewRefs ((HStorage.rename_list ⟨[0], [(0, ⟨"L1", "Groceries", []⟩)], [], 1⟩
        "L1" "Errands").2)
      (HStorage.get_lists ⟨[0], [(0, ⟨"L1", "Groceries", []⟩)], [], 1⟩) =
    (HStorage.get_lists ⟨[0], [(0, ⟨"L1", "Groceries", []⟩)], [], 1⟩).map (fun q =>
      if q = 0 then
        (viewList ⟨[0], [(0, ⟨"L1", "Groceries", []⟩)], [], 1⟩ q).map
          (fun vl => ⟨vl.id, pyStrip "Errands", vl.tasks⟩)
      else viewList ⟨[0], [(0, ⟨"L1", "Groceries", []⟩)], [], 1⟩ q) :=
  (c4_shallow_snapshot ⟨[0], [(0, ⟨"L1", "Groceries", []⟩)], [], 1⟩).2.2
    "L1" "Errands" 0 _ rfl rfl

end SimpleTodo
